import Mathlib

/-! ## Subscription service: a shallow embedding and its verified properties

The development follows the Go packages of the repository:

* `time`, `uuid`, `validator`, `sql`  -- the library behaviour the program relies on
  (month layout parsing, UUID text form, struct-tag validation, the SQL statements'
  meaning on an in-memory table);
* `sql_models`, `json_models`         -- the data model;
* `repository`, `service`, `handler`  -- the three layers of the program.

Go strings are modelled by Lean strings read character by character.  Every byte test
made by the modelled code (`'0'..'9'`, `'-'`, hexadecimal digits) is a test on an ASCII
byte, and no byte of a multi-byte UTF-8 character is ASCII, so reading characters
instead of bytes accepts and rejects the same strings.
-/

namespace SubscriptionAPI

/-! ## Package `time` -/

namespace time

/-- A time zone, as Go's `*time.Location`, reduced to a name and a fixed offset east of
UTC in seconds. -/
structure Location where
  name : String
  offset : Int
deriving DecidableEq, Repr

/-- The zone `time.UTC`. -/
def UTC : Location := ⟨"UTC", 0⟩

/-- A value of Go's `time.Time`: the calendar reading of an instant in the zone `loc`. -/
structure Time where
  year : Int
  month : Nat
  day : Nat
  hour : Nat
  min : Nat
  sec : Nat
  nsec : Nat
  loc : Location
deriving DecidableEq, Repr

/-- Go's `time.Date` on fields that are already in range (month 1..12, day within the
month, clock fields within their units), where it performs no normalisation. -/
def Date (year : Int) (month day hour min sec nsec : Nat) (loc : Location) : Time :=
  ⟨year, month, day, hour, min, sec, nsec, loc⟩

/-- Leap-year test of the proleptic Gregorian calendar (`isLeap`). -/
def isLeap (year : Int) : Bool :=
  year % 4 == 0 && (year % 100 != 0 || year % 400 == 0)

/-- Days of a non-leap year before the first day of `month` (table `daysBefore`). -/
def daysBefore (month : Nat) : Nat :=
  match month with
  | 2 => 31
  | 3 => 59
  | 4 => 90
  | 5 => 120
  | 6 => 151
  | 7 => 181
  | 8 => 212
  | 9 => 243
  | 10 => 273
  | 11 => 304
  | 12 => 334
  | _ => 0

/-- Days from 1 January of year 1 to 1 January of `year`. -/
def daysSinceYearOne (year : Int) : Int :=
  let y := year - 1
  365 * y + y / 4 - y / 100 + y / 400

/-- Seconds from the start of year 1 (UTC) to the instant `t` denotes: the computation of
`time.Date`, up to the constant shift of Go's internal epoch. -/
def Time.abs (t : Time) : Int :=
  let leapDay : Int := if isLeap t.year && decide (3 ≤ t.month) then 1 else 0
  let days : Int := daysSinceYearOne t.year + daysBefore t.month + leapDay + (t.day : Int) - 1
  days * 86400 + (t.hour : Int) * 3600 + (t.min : Int) * 60 + (t.sec : Int) - t.loc.offset

/-- Chronological order on instants: `t.Before u`. -/
def Time.Before (t u : Time) : Bool :=
  decide (t.abs < u.abs) || (decide (t.abs = u.abs) && decide (t.nsec < u.nsec))

/-- The comparison `t <= u` on instants. -/
def Time.le (t u : Time) : Bool := !(u.Before t)

/-- The test `'0' <= s[i] && s[i] <= '9'` with the bounds check of `isDigit`. -/
def isDigit (s : List Char) (i : Nat) : Bool :=
  match s.get? i with
  | some c => decide (48 ≤ c.toNat) && decide (c.toNat ≤ 57)
  | none => false

/-- The value `int(c - '0')` of a digit character. -/
def digitVal (c : Char) : Nat := c.toNat - 48

/-- Go's `getnum`: one or two leading digits; with `fixed` exactly two are required. -/
def getnum (s : List Char) (fixed : Bool) : Option (Nat × List Char) :=
  if !isDigit s 0 then none
  else if !isDigit s 1 then
    if fixed then none else some (digitVal (s.getD 0 '0'), s.drop 1)
  else some (digitVal (s.getD 0 '0') * 10 + digitVal (s.getD 1 '0'), s.drop 2)

/-- Go's `skip` for a layout text without spaces: the value must start with it. -/
def skip : List Char → List Char → Option (List Char)
  | value, [] => some value
  | [], _ :: _ => none
  | v :: value, p :: rest => if v = p then skip value rest else none

/-- Go's `leadingInt`: the leading decimal digits of `s` as a number and the remainder;
`none` on overflow of 63 bits. -/
def leadingInt : List Char → Nat → Option (Nat × List Char)
  | [], x => some (x, [])
  | c :: cs, x =>
    if c.toNat < 48 ∨ 57 < c.toNat then some (x, c :: cs)
    else if x > 2 ^ 63 / 10 then none
    else
      let y := x * 10 + digitVal c
      if y > 2 ^ 63 then none else leadingInt cs y

/-- Go's `atoi`: an optional sign followed by digits only. -/
def atoi (s : List Char) : Option Int :=
  let neg : Bool := match s with
    | c :: _ => c = '-'
    | [] => false
  let body : List Char := match s with
    | c :: cs => if c = '-' ∨ c = '+' then cs else c :: cs
    | [] => []
  match leadingInt body 0 with
  | some (q, []) => some (if neg then -(q : Int) else (q : Int))
  | _ => none

/-- Go's `time.ParseError`. -/
structure ParseError where
  Layout : String
  Value : String
  LayoutElem : String
  ValueElem : String
  Message : String
deriving DecidableEq, Repr

/-- Go's `quote` of package `time`: the text between double quotes, a backslash before a
double quote or a backslash, and every byte of a control or non-ASCII character written
as `\x` and two hexadecimal digits. -/
def quote (s : String) : String :=
  let hex : Nat → Char := fun n => if n < 10 then Char.ofNat (48 + n) else Char.ofNat (87 + n)
  let one : Char → List Char := fun c =>
    if 128 ≤ c.toNat ∨ c.toNat < 32 then
      (String.singleton c).toUTF8.toList.flatMap
        (fun b => ['\\', 'x', hex (b.toNat / 16), hex (b.toNat % 16)])
    else if c = '"' ∨ c = '\\' then ['\\', c]
    else [c]
  String.mk (['"'] ++ s.data.flatMap one ++ ['"'])

/-- The text of a parse failure, `(*ParseError).Error`. -/
def ParseError.Error (e : ParseError) : String :=
  if e.Message = "" then
    "parsing time " ++ quote e.Value ++ " as " ++ quote e.Layout ++ ": cannot parse " ++
      quote e.ValueElem ++ " as " ++ quote e.LayoutElem
  else
    "parsing time " ++ quote e.Value ++ e.Message

/-- The layout `"01-2006"` every date of the service is read and written with. -/
def monthLayout : String := "01-2006"

/-- Go's `time.Parse("01-2006", value)`.  The layout has three chunks: the zero-padded
month `01`, the literal `-` followed by the four-digit year `2006`, and the empty rest,
at which no text may remain.  Day and clock fields are absent from the layout and keep
their defaults (day 1, time 0), and `Parse` builds the result in UTC. -/
def Parse (value : String) : Except ParseError Time :=
  match getnum value.data true with
  | none => .error ⟨monthLayout, value, "01", value, ""⟩
  | some (month, v1) =>
    if month = 0 ∨ 12 < month then
      .error ⟨monthLayout, value, "01", String.mk v1, ": month out of range"⟩
    else
      match skip v1 ['-'] with
      | none => .error ⟨monthLayout, value, "-", String.mk v1, ""⟩
      | some v2 =>
        if v2.length < 4 ∨ !isDigit v2 0 then
          .error ⟨monthLayout, value, "2006", String.mk v2, ""⟩
        else
          match atoi (v2.take 4) with
          | none => .error ⟨monthLayout, value, "2006", String.mk v2, ""⟩
          | some year =>
            if (v2.drop 4).length ≠ 0 then
              .error ⟨monthLayout, value, "", String.mk (v2.drop 4),
                ": extra text: " ++ quote (String.mk (v2.drop 4))⟩
            else
              .ok (Date year month 1 0 0 0 0 UTC)

/-- The decimal digit character of `n < 10`. -/
def digitChar (n : Nat) : Char := Char.ofNat (48 + n % 10)

/-- Decimal digits of `n`, most significant first, by repeated division (`fuel` bounds
the number of digits). -/
def decimal : Nat → Nat → List Char
  | 0, _ => []
  | fuel + 1, n => if n < 10 then [digitChar n] else decimal fuel (n / 10) ++ [digitChar n]

/-- Go's `appendInt`: the decimal form of `x`, zero-padded to `width`, after a minus sign
when `x` is negative; with the two fast paths for two and four digits. -/
def appendInt (x : Int) (width : Nat) : List Char :=
  let u : Nat := x.natAbs
  let sign : List Char := if x < 0 then ['-'] else []
  if width = 2 ∧ u < 100 then
    sign ++ [digitChar (u / 10), digitChar u]
  else if width = 4 ∧ u < 10000 then
    sign ++ [digitChar (u / 100 / 10), digitChar (u / 100), digitChar (u % 100 / 10),
      digitChar (u % 100)]
  else
    let ds := decimal (u + 1) u
    sign ++ List.replicate (width - ds.length) '0' ++ ds

/-- Go's `t.Format("01-2006")`: month on two digits, a hyphen, year on four digits. -/
def Time.Format (t : Time) : String :=
  String.mk (appendInt t.month 2 ++ ['-'] ++ appendInt t.year 4)

end time

/-! ## Package `uuid` -/

namespace uuid

/-- Go's `uuid.UUID`, an array of sixteen bytes. -/
structure UUID where
  bytes : List (Fin 256)
  size : bytes.length = 16
deriving DecidableEq

/-- One lower-case hexadecimal digit. -/
def hexDigit (n : Nat) : Char :=
  if n < 10 then Char.ofNat (48 + n) else Char.ofNat (87 + n)

/-- Go's `hex.Encode`: two lower-case digits per byte. -/
def hexEncode (bs : List (Fin 256)) : List Char :=
  bs.flatMap (fun b => [hexDigit (b.val / 16), hexDigit (b.val % 16)])

/-- Go's `u.String()`: the form `xxxxxxxx-xxxx-xxxx-xxxx-xxxxxxxxxxxx` (`encodeHex`). -/
def UUID.String (u : UUID) : String :=
  String.mk (hexEncode (u.bytes.take 4) ++ ['-'] ++ hexEncode ((u.bytes.drop 4).take 2) ++
    ['-'] ++ hexEncode ((u.bytes.drop 6).take 2) ++ ['-'] ++
    hexEncode ((u.bytes.drop 8).take 2) ++ ['-'] ++ hexEncode (u.bytes.drop 10))

/-- The value of a hexadecimal digit of either case (table `xvalues`). -/
def xvalue (c : Char) : Option Nat :=
  let n := c.toNat
  if 48 ≤ n ∧ n ≤ 57 then some (n - 48)
  else if 97 ≤ n ∧ n ≤ 102 then some (n - 87)
  else if 65 ≤ n ∧ n ≤ 70 then some (n - 55)
  else none

/-- Go's `xtob`: the byte written by two hexadecimal digits. -/
def xtob (x1 x2 : Char) : Option (Fin 256) :=
  match xvalue x1, xvalue x2 with
  | some a, some b => some (Fin.ofNat (a * 16 + b))
  | _, _ => none

/-- The bytes written by consecutive pairs of hexadecimal digits. -/
def decodePairs : List Char → Option (List (Fin 256))
  | [] => some []
  | [_] => none
  | x1 :: x2 :: rest =>
    match xtob x1 x2, decodePairs rest with
    | some b, some bs => some (b :: bs)
    | _, _ => none

/-- The part of `uuid.Parse` that reads the 36-character form: hyphens at positions 8,
13, 18 and 23, hexadecimal pairs elsewhere; text after position 36 is not looked at. -/
def parseCanonical (s : List Char) : Option UUID :=
  if s.get? 8 ≠ some '-' ∨ s.get? 13 ≠ some '-' ∨ s.get? 18 ≠ some '-' ∨
      s.get? 23 ≠ some '-' then none
  else
    match decodePairs ((s.take 8) ++ ((s.drop 9).take 4) ++ ((s.drop 14).take 4) ++
        ((s.drop 19).take 4) ++ ((s.drop 24).take 12)) with
    | some bs => if h : bs.length = 16 then some ⟨bs, h⟩ else none
    | none => none

/-- Go's `uuid.Parse`, with the error reduced to `none` (callers only test it and log
it).  The accepted lengths are 36, 45 (`urn:uuid:` first, in either case), 38 (any first
and last byte around the 36-character form) and 32 (no hyphens).  A text holding a
non-ASCII character fails in every branch of the Go code. -/
def Parse (s : String) : Option UUID :=
  let cs := s.data
  if cs.any (fun c => decide (128 ≤ c.toNat)) then none
  else if cs.length = 36 then parseCanonical cs
  else if cs.length = 45 then
    if (cs.take 9).map Char.toLower = "urn:uuid:".data then parseCanonical (cs.drop 9)
    else none
  else if cs.length = 38 then parseCanonical (cs.drop 1)
  else if cs.length = 32 then
    match decodePairs cs with
    | some bs => if h : bs.length = 16 then some ⟨bs, h⟩ else none
    | none => none
  else none

end uuid

/-! ## The data model: packages `sql_models` and `json_models` -/

namespace sql_models

/-- A row of the table `subscriptions`, and the record `sql_models.Subscription` a row is
scanned into (`EndDate` is `none` for a NULL `end_date`). -/
structure Subscription where
  ID : String
  ServiceName : String
  Price : Int
  UserID : String
  StartDate : time.Time
  EndDate : Option time.Time
  CreatedAt : time.Time
deriving DecidableEq

end sql_models

namespace json_models

/-- The body of a create request; `EndDate` is a pointer in the source, `none` is nil. -/
structure CreateSubscription where
  ServiceName : String
  Price : Int
  UserID : String
  StartDate : String
  EndDate : Option String
deriving DecidableEq

/-- The body of an update request. -/
structure PutSubscription where
  ServiceName : String
  Price : Int
  SubscriptionID : String
  StartDate : String
  EndDate : Option String
deriving DecidableEq

/-- The payload the service hands to the data-access update: name and price are plain
values, the two dates are pointers. -/
structure SubscriptionUpdate where
  ServiceName : String
  Price : Int
  StartDate : Option time.Time
  EndDate : Option time.Time
deriving DecidableEq

/-- The query parameters of the cost calculation. -/
structure CostRequest where
  UserID : Option String
  ServiceName : Option String
  StartDate : String
  EndDate : Option String
deriving DecidableEq

end json_models

/-! ## Package `validator`: the `validate` struct tags -/

namespace validator

/-- One failed field of `validate.Struct`: the struct, the field and the failed tag. -/
structure FieldError where
  ns : String
  field : String
  tag : String
deriving DecidableEq

/-- The text of one failure, `fieldError.Error`. -/
def FieldError.Error (e : FieldError) : String :=
  "Key: " ++ "\x27" ++ e.ns ++ "." ++ e.field ++ "\x27" ++ " Error:Field validation for " ++
    "\x27" ++ e.field ++ "\x27" ++ " failed on the " ++ "\x27" ++ e.tag ++ "\x27" ++ " tag"

/-- The text of all failures, `ValidationErrors.Error`: one line per failure. -/
def errorText (errs : List FieldError) : String :=
  "\n".intercalate (errs.map FieldError.Error)

/-- A lower-case hexadecimal digit, the class `[0-9a-f]`. -/
def lowerHex (c : Char) : Bool :=
  (decide (48 ≤ c.toNat) && decide (c.toNat ≤ 57)) ||
    (decide (97 ≤ c.toNat) && decide (c.toNat ≤ 102))

/-- A text matches a sequence of one-character classes when it has their length and
each character is in its class. -/
def matchClasses : List (Char → Bool) → List Char → Bool
  | [], [] => true
  | f :: fs, c :: cs => f c && matchClasses fs cs
  | _, _ => false

/-- The tag `uuid4`, the regular expression
`^[0-9a-f]{8}-[0-9a-f]{4}-4[0-9a-f]{3}-[89ab][0-9a-f]{3}-[0-9a-f]{12}$`. -/
def isUUID4 (s : String) : Bool :=
  let hyphen : Char → Bool := fun c => c == '-'
  matchClasses
    (List.replicate 8 lowerHex ++ [hyphen] ++ List.replicate 4 lowerHex ++ [hyphen] ++
      [fun c => c == '4'] ++ List.replicate 3 lowerHex ++ [hyphen] ++
      [fun c => c == '8' || c == '9' || c == 'a' || c == 'b'] ++ List.replicate 3 lowerHex ++
      [hyphen] ++ List.replicate 12 lowerHex)
    s.data

/-- The tag `datetime=01-2006`: the field parses with `time.Parse` in that layout. -/
def isDatetime (s : String) : Bool :=
  match time.Parse s with
  | .ok _ => true
  | .error _ => false

/-- The tags `required,datetime=01-2006` on a string field. -/
def requiredDatetime (ns field value : String) : List FieldError :=
  if value = "" then [⟨ns, field, "required"⟩]
  else if !isDatetime value then [⟨ns, field, "datetime"⟩]
  else []

/-- The tags `omitempty,datetime=01-2006` on a pointer field: a nil pointer is skipped, a
pointer to any text (the empty one too) is checked. -/
def omitemptyDatetime (ns field : String) (value : Option String) : List FieldError :=
  match value with
  | none => []
  | some v => if !isDatetime v then [⟨ns, field, "datetime"⟩] else []

/-- The call `validate.Struct` on a `CreateSubscription`: `ServiceName` `required`;
`Price` `required,gt=0`; `UserID` `required,uuid4`; `StartDate`
`required,datetime=01-2006`; `EndDate` `omitempty,datetime=01-2006`.  The tags of a field
are tried in order and the first failing one is reported. -/
def StructCreateSubscription (s : json_models.CreateSubscription) : List FieldError :=
  (if s.ServiceName = "" then [⟨"CreateSubscription", "ServiceName", "required"⟩] else []) ++
  (if s.Price = 0 then [⟨"CreateSubscription", "Price", "required"⟩]
    else if ¬ (s.Price > 0) then [⟨"CreateSubscription", "Price", "gt"⟩] else []) ++
  (if s.UserID = "" then [⟨"CreateSubscription", "UserID", "required"⟩]
    else if !isUUID4 s.UserID then [⟨"CreateSubscription", "UserID", "uuid4"⟩] else []) ++
  requiredDatetime "CreateSubscription" "StartDate" s.StartDate ++
  omitemptyDatetime "CreateSubscription" "EndDate" s.EndDate

/-- The call `validate.Struct` on a `PutSubscription`: `ServiceName` `required`; `Price`
`gt=0`; `SubscriptionID` `uuid4`; `StartDate` `datetime=01-2006`; `EndDate`
`omitempty,datetime=01-2006`. -/
def StructPutSubscription (s : json_models.PutSubscription) : List FieldError :=
  (if s.ServiceName = "" then [⟨"PutSubscription", "ServiceName", "required"⟩] else []) ++
  (if ¬ (s.Price > 0) then [⟨"PutSubscription", "Price", "gt"⟩] else []) ++
  (if !isUUID4 s.SubscriptionID then [⟨"PutSubscription", "SubscriptionID", "uuid4"⟩]
    else []) ++
  (if !isDatetime s.StartDate then [⟨"PutSubscription", "StartDate", "datetime"⟩] else []) ++
  omitemptyDatetime "PutSubscription" "EndDate" s.EndDate

/-- The call `validate.Struct` on a `CostRequest`: `StartDate`
`required,datetime=01-2006`; `EndDate` `omitempty,datetime=01-2006`; the other two fields
carry no tag. -/
def StructCostRequest (s : json_models.CostRequest) : List FieldError :=
  requiredDatetime "CostRequest" "StartDate" s.StartDate ++
  omitemptyDatetime "CostRequest" "EndDate" s.EndDate

end validator

/-! ## The store: the table `subscriptions` and the meaning of the SQL the program sends -/

namespace sql

/-- A value bound to a placeholder of a statement. -/
inductive Value where
  | text (s : String)
  | int (n : Int)
  | time (t : time.Time)
  | null
deriving DecidableEq

/-- A pointer to a time bound as an argument: nil is sent as NULL. -/
def Value.ofTime (t : Option time.Time) : Value :=
  match t with
  | some v => .time v
  | none => .null

/-- The step of a call of `database/sql` at which a failure of the store reaches the
program: when the statement is sent (the error of `ExecContext` or `QueryContext`), when
a row of the result is read (the error of `Rows.Scan`), when the iteration over the
result ends (the error of `Rows.Err`), or when the number of affected rows is asked for
(the error of `Result.RowsAffected`). -/
inductive Stage where
  | send
  | scan
  | iteration
  | affected
deriving DecidableEq

/-- A failure of the store: the step at which it shows and the text of the error. -/
structure Fault where
  stage : Stage
  text : String
deriving DecidableEq

/-- The store as the program sees it through `*sql.DB`: the rows of `subscriptions`; the
failure, if any, with which the server or the driver answers a statement (connection
loss, constraint violation, a pattern the server refuses, a value that does not scan),
with the step at which it shows; and the statements sent so far, each with its
arguments. -/
structure DB where
  rows : List sql_models.Subscription
  fault : Option Fault
  log : List (String × List Value)
deriving DecidableEq

/-- The error a call meets at the given step: the text of the failure of the store when
it shows at that step, nil otherwise.  A call that does not take the step at which the
store fails does not meet the failure. -/
def DB.failure (db : DB) (stage : Stage) : Option String :=
  match db.fault with
  | some f => if f.stage = stage then some f.text else none
  | none => none

/-- The store after one more statement has been sent. -/
def DB.sent (db : DB) (query : String) (args : List Value) : DB :=
  { db with log := db.log ++ [(query, args)] }

/-- The argument bound to the placeholder `$pos` (positions count from 1). -/
def param (args : List Value) (pos : Nat) : Value :=
  match pos with
  | 0 => .null
  | n + 1 => args.getD n .null

/-- The operator `LIKE` of PostgreSQL: `%` matches any run of characters, `_` any one
character, a backslash makes the next pattern character literal.  A pattern ending in a
lone backslash matches nothing (the server refuses it with an error when the match gets
that far, a failure covered by `DB.fault`). -/
def like : List Char → List Char → Bool
  | [], t => t.isEmpty
  | '%' :: p, t => t.tails.any (fun rest => like p rest)
  | '_' :: p, t =>
    match t with
    | [] => false
    | _ :: rest => like p rest
  | ['\\'], _ => false
  | '\\' :: c :: p, t =>
    match t with
    | [] => false
    | x :: rest => x == c && like p rest
  | c :: p, t =>
    match t with
    | [] => false
    | x :: rest => x == c && like p rest

/-- The case folding of the database server: what its function `lower` makes of a text
under the encoding and collation the database was created with.  Which letters it folds
depends on that locale; no folding produces one of the three pattern characters `%`, `_`
and backslash from a text that has none. -/
structure CaseFolding where
  lower : List Char → List Char
  lower_plain : ∀ s : List Char, (∀ c ∈ s, c ≠ '%' ∧ c ≠ '_' ∧ c ≠ '\\') →
    ∀ c ∈ lower s, c ≠ '%' ∧ c ≠ '_' ∧ c ≠ '\\'

/-- A folding that works character by character, by a map that turns no other character
into a pattern character. -/
def CaseFolding.ofChars (f : Char → Char)
    (h : ∀ c : Char, c ≠ '%' ∧ c ≠ '_' ∧ c ≠ '\\' → f c ≠ '%' ∧ f c ≠ '_' ∧ f c ≠ '\\') :
    CaseFolding where
  lower := fun s => s.map f
  lower_plain := by
    intro s hs c hc
    obtain ⟨d, hd, rfl⟩ := List.mem_map.mp hc
    exact h d (hs d hd)

/-- The folding of the locale `C`: only the letters `A` to `Z` are folded. -/
def CaseFolding.ascii : CaseFolding :=
  CaseFolding.ofChars Char.toLower (by
    intro c h
    unfold Char.toLower
    by_cases hu : c.toNat ≥ 65 ∧ c.toNat ≤ 90
    · simp only [hu, and_self, if_true]
      obtain ⟨h1, h2⟩ := hu
      generalize c.toNat = n at h1 h2
      interval_cases n <;> decide
    · simp only [hu, if_false]
      exact h)

/-- A folding that puts the Russian capital letters `А` to `Я` in lower case as well as
`A` to `Z`. -/
def CaseFolding.russian : CaseFolding :=
  CaseFolding.ofChars
    (fun c => if 1040 ≤ c.toNat ∧ c.toNat ≤ 1071 then Char.ofNat (c.toNat + 32)
      else Char.toLower c)
    (by
      intro c h
      by_cases hr : 1040 ≤ c.toNat ∧ c.toNat ≤ 1071
      · simp only [hr, and_self, if_true]
        obtain ⟨h1, h2⟩ := hr
        generalize c.toNat = n at h1 h2
        interval_cases n <;> decide
      · simp only [hr, if_false]
        unfold Char.toLower
        by_cases hu : c.toNat ≥ 65 ∧ c.toNat ≤ 90
        · simp only [hu, and_self, if_true]
          obtain ⟨h1, h2⟩ := hu
          generalize c.toNat = n at h1 h2
          interval_cases n <;> decide
        · simp only [hu, if_false]
          exact h)

/-- The operator `ILIKE`: `LIKE` after the pattern and the text are put in lower case by
the server's case folding. -/
def ilike (L : CaseFolding) (pattern text : String) : Bool :=
  like (L.lower pattern.data) (L.lower text.data)

/-- The conjuncts of the `WHERE` clause of the cost statement, each with the position of
the placeholder it reads. -/
inductive Pred where
  | startDateGe (pos : Nat)
  | endDateNullOrLe (pos : Nat)
  | userIdEq (pos : Nat)
  | serviceNameILike (pos : Nat)
deriving DecidableEq

/-- Whether a row satisfies a conjunct under the bound arguments:
`start_date >= $pos`, `(end_date IS NULL OR end_date <= $pos)`, `user_id = $pos`,
`service_name ILIKE $pos`.  A comparison with a NULL or wrongly typed argument is not
true. -/
def Pred.holds (L : CaseFolding) (args : List Value) (r : sql_models.Subscription) : Pred → Bool
  | .startDateGe pos =>
    match param args pos with
    | .time t => t.le r.StartDate
    | _ => false
  | .endDateNullOrLe pos =>
    match r.EndDate with
    | none => true
    | some e =>
      match param args pos with
      | .time t => e.le t
      | _ => false
  | .userIdEq pos =>
    match param args pos with
    | .text u => r.UserID == u
    | _ => false
  | .serviceNameILike pos =>
    match param args pos with
    | .text pattern => ilike L pattern r.ServiceName
    | _ => false

/-- The aggregate `SUM(price)` over the selected rows: NULL when there is none. -/
def sumPrice (rows : List sql_models.Subscription) : Option Int :=
  match rows with
  | [] => none
  | _ :: _ => some (rows.map (fun r => r.Price)).sum

/-- The result `COALESCE(SUM(price), 0)` of the cost statement over the rows that satisfy
every conjunct. -/
def selectCost (L : CaseFolding) (conds : List Pred) (args : List Value)
    (rows : List sql_models.Subscription) : Int :=
  (sumPrice (rows.filter (fun r => conds.all (fun c => c.holds L args r)))).getD 0

/-- The function `COALESCE(v, old)` on a text column. -/
def coalesceText (v : Value) (old : String) : String :=
  match v with
  | .text s => s
  | _ => old

/-- The function `COALESCE(v, old)` on an integer column. -/
def coalesceInt (v : Value) (old : Int) : Int :=
  match v with
  | .int n => n
  | _ => old

/-- The function `COALESCE(v, old)` on a date column that is not null. -/
def coalesceTime (v : Value) (old : time.Time) : time.Time :=
  match v with
  | .time t => t
  | _ => old

/-- The function `COALESCE(v, old)` on a nullable date column. -/
def coalesceOptTime (v : Value) (old : Option time.Time) : Option time.Time :=
  match v with
  | .time t => some t
  | _ => old

end sql

/-! ## Package `repository`

Each method takes the store and returns its Go results together with the store after
the call.  A Go result `(T, error)` is a pair whose second component is `none` for a nil
error and the error text otherwise.  The identifier drawn by `uuid.New()` and the clock
reading `time.Now()` are inputs.  Logging is not modelled. -/

namespace repository

open sql

/-- The statement of `InsertSubscription`. -/
def insertQuery : String :=
  "INSERT INTO subscriptions (id, service_name, price, user_id, start_date, end_date, created_at) VALUES ($1, $2, $3, $4, $5, $6, $7)"

/-- Go's `InsertSubscription`: draws the id, sends the insert with its seven arguments,
and on success returns the id; when the store refuses the statement it returns the empty
id and the wrapped error. -/
def InsertSubscription (db : DB) (serviceName : String) (price : Int) (userID : String)
    (startDate : time.Time) (endTime : Option time.Time) (newID : uuid.UUID)
    (now : time.Time) : (String × Option String) × DB :=
  let id := newID.String
  let args := [Value.text id, .text serviceName, .int price, .text userID, .time startDate,
    Value.ofTime endTime, .time now]
  let db1 := db.sent insertQuery args
  match db.failure .send with
  | some err => (("", some ("failed to insert subscription: " ++ err)), db1)
  | none =>
    ((id, none),
      { db1 with rows := db.rows ++ [⟨id, serviceName, price, userID, startDate, endTime, now⟩] })

/-- The statement of `GetSubscriptions`. -/
def selectQuery : String :=
  "SELECT id, service_name, price, user_id, start_date, end_date, created_at FROM subscriptions WHERE user_id = $1"

/-- Go's `GetSubscriptions`: the rows whose `user_id` is the text form of the given
identifier, each scanned into a record (a NULL `end_date` leaves `EndDate` nil).  The
call fails with `database query failed` when the statement is refused, with
`error with scanning` when a row is read and does not scan (which takes a row to read),
and with `iteration error` when the iteration ends on an error. -/
def GetSubscriptions (db : DB) (userID : uuid.UUID) :
    (List sql_models.Subscription × Option String) × DB :=
  let db1 := db.sent selectQuery [Value.text userID.String]
  match db.failure .send with
  | some err => (([], some ("database query failed: " ++ err)), db1)
  | none =>
    let subscriptions := db.rows.filter (fun r => r.UserID == userID.String)
    match (if subscriptions = [] then none else db.failure .scan) with
    | some err => (([], some ("error with scanning: " ++ err)), db1)
    | none =>
      match db.failure .iteration with
      | some err => (([], some ("iteration error: " ++ err)), db1)
      | none => ((subscriptions, none), db1)

/-- The statement of `UpdateSubscription`. -/
def updateQuery : String :=
  "\n\t\tUPDATE subscriptions\n\t\tSET \n\t\t\tservice_name = COALESCE($1, service_name),\n\t\t\tprice = COALESCE($2, price),\n\t\t\tstart_date = COALESCE($3, start_date),\n\t\t\tend_date = COALESCE($4, end_date)\n\t\tWHERE id = $5\n\t"

/-- The effect of the update statement on one row: a row with the given id gets, column
by column, `COALESCE(argument, old value)`; any other row is left as it is. -/
def updateRow (args : List Value) (r : sql_models.Subscription) : sql_models.Subscription :=
  match param args 5 with
  | .text id =>
    if r.ID = id then
      { r with
        ServiceName := coalesceText (param args 1) r.ServiceName
        Price := coalesceInt (param args 2) r.Price
        StartDate := coalesceTime (param args 3) r.StartDate
        EndDate := coalesceOptTime (param args 4) r.EndDate }
    else r
  | _ => r

/-- Go's `UpdateSubscription`: binds the name and the price as they are (a Go string or
int is never sent as NULL), the two dates as pointers (nil is NULL), and the id; the
number of rows affected is not read. -/
def UpdateSubscription (db : DB) (subscriptionID : String)
    (data : json_models.SubscriptionUpdate) : Option String × DB :=
  let args := [Value.text data.ServiceName, .int data.Price, Value.ofTime data.StartDate,
    Value.ofTime data.EndDate, .text subscriptionID]
  let db1 := db.sent updateQuery args
  match db.failure .send with
  | some err => (some ("failed to update subscription: " ++ err), db1)
  | none => (none, { db1 with rows := db.rows.map (updateRow args) })

/-- The statement of `DeleteSubscription`. -/
def deleteQuery : String :=
  "DELETE FROM subscriptions \n        WHERE id = $1"

/-- Go's `DeleteSubscription`: deletes the rows with the id and fails with
`subscription does not exist` when the statement affected no row; when the statement ran
and the number of affected rows cannot be read, it fails with
`failed to verify deletion`. -/
def DeleteSubscription (db : DB) (subscriptionUUID : uuid.UUID) : Option String × DB :=
  let db1 := db.sent deleteQuery [Value.text subscriptionUUID.String]
  match db.failure .send with
  | some err => (some ("database error when deleting subscription: " ++ err), db1)
  | none =>
    let kept := db.rows.filter (fun r => r.ID != subscriptionUUID.String)
    match db.failure .affected with
    | some err => (some ("failed to verify deletion: " ++ err), { db1 with rows := kept })
    | none =>
      let rowsAffected := db.rows.length - kept.length
      if rowsAffected = 0 then (some "subscription does not exist", { db1 with rows := kept })
      else (none, { db1 with rows := kept })

/-- A statement under construction: its text, the conjuncts of its `WHERE` clause as the
server reads them from the text, and the arguments bound so far. -/
structure Statement where
  text : String
  conds : List Pred
  args : List Value
deriving DecidableEq

/-- The fixed head of the cost statement. -/
def costQuery : String :=
  "\n        SELECT COALESCE(SUM(price), 0) \n        FROM subscriptions \n        WHERE start_date >= $1\n        AND (end_date IS NULL OR end_date <= $2)\n    "

/-- The statement `GetSubscriptionsCost` builds: the fixed head with the start date and
the check date (the end date, or the current time without one), then for each filter
that is present one more conjunct with the next placeholder number written by
`fmt.Sprintf` and the filter value appended to the arguments. -/
def costStatement (userID : Option uuid.UUID) (serviceName : Option String)
    (startDate : time.Time) (endDate : Option time.Time) (now : time.Time) : Statement :=
  let checkDate := match endDate with
    | some e => e
    | none => now
  let st0 : Statement :=
    ⟨costQuery, [Pred.startDateGe 1, Pred.endDateNullOrLe 2],
      [Value.time startDate, Value.time checkDate]⟩
  let argPos0 : Nat := 3
  let s1 : Statement × Nat := match userID with
    | some u =>
      ({ text := st0.text ++ (" AND user_id = $" ++ toString argPos0)
         conds := st0.conds ++ [Pred.userIdEq argPos0]
         args := st0.args ++ [Value.text u.String] }, argPos0 + 1)
    | none => (st0, argPos0)
  match serviceName with
  | some name =>
    { text := s1.1.text ++ (" AND service_name ILIKE $" ++ toString s1.2)
      conds := s1.1.conds ++ [Pred.serviceNameILike s1.2]
      args := s1.1.args ++ [Value.text name] }
  | none => s1.1

/-- Go's `GetSubscriptionsCost`: sends the built statement and scans the single sum, which
the server computes under its case folding `L`.  `QueryRowContext` keeps the error of the
statement for `Row.Scan`, which also returns those of reading the one row, so the three
come out of the same call. -/
def GetSubscriptionsCost (L : CaseFolding) (db : DB) (userID : Option uuid.UUID)
    (serviceName : Option String) (startDate : time.Time) (endDate : Option time.Time) (now : time.Time) :
    (Int × Option String) × DB :=
  let st := costStatement userID serviceName startDate endDate now
  let db1 := db.sent st.text st.args
  match db.failure .send <|> db.failure .iteration <|> db.failure .scan with
  | some err => ((0, some ("failed to calculate subscriptions cost: " ++ err)), db1)
  | none => ((selectCost L st.conds st.args db.rows, none), db1)

end repository

/-! ## Package `service` -/

namespace service

open sql

/-- Go's `SubscriptionService.CreateSubscription`: parses the start month, then the end
month when there is one, and inserts; a date that does not parse ends the call before
the store is reached. -/
def CreateSubscription (db : DB) (sub : json_models.CreateSubscription) (newID : uuid.UUID)
    (now : time.Time) : (String × Option String) × DB :=
  match time.Parse sub.StartDate with
  | .error err => (("", some ("invalid start date format: " ++ err.Error)), db)
  | .ok startDate =>
    match sub.EndDate with
    | none =>
      repository.InsertSubscription db sub.ServiceName sub.Price sub.UserID startDate none
        newID now
    | some text =>
      match time.Parse text with
      | .error err => (("", some ("invalid end date format: " ++ err.Error)), db)
      | .ok endDate =>
        repository.InsertSubscription db sub.ServiceName sub.Price sub.UserID startDate
          (some endDate) newID now

/-- Go's `SubscriptionService.GetUserSubscriptions`. -/
def GetUserSubscriptions (db : DB) (userID : uuid.UUID) :
    (List sql_models.Subscription × Option String) × DB :=
  let r := repository.GetSubscriptions db userID
  match r.1.2 with
  | some err => (([], some ("failed to get subscriptions: " ++ err)), r.2)
  | none => ((r.1.1, none), r.2)

/-- Go's `SubscriptionService.UpdateSubscription`: the start month is parsed when the
text is not empty and the end month when the pointer is not nil; the payload takes the
name and the price of the request as they are. -/
def UpdateSubscription (db : DB) (req : json_models.PutSubscription) : Option String × DB :=
  let start : Except time.ParseError (Option time.Time) :=
    if req.StartDate ≠ "" then
      match time.Parse req.StartDate with
      | .error err => .error err
      | .ok sd => .ok (some sd)
    else .ok none
  match start with
  | .error err => (some ("invalid start date format: " ++ err.Error), db)
  | .ok startDate =>
    let stop : Except time.ParseError (Option time.Time) :=
      match req.EndDate with
      | some text =>
        match time.Parse text with
        | .error err => .error err
        | .ok ed => .ok (some ed)
      | none => .ok none
    match stop with
    | .error err => (some ("invalid end date format: " ++ err.Error), db)
    | .ok endDate =>
      let updateData : json_models.SubscriptionUpdate :=
        ⟨req.ServiceName, req.Price, startDate, endDate⟩
      let r := repository.UpdateSubscription db req.SubscriptionID updateData
      match r.1 with
      | some err => (some ("failed to update subscription: " ++ err), r.2)
      | none => (none, r.2)

/-- Go's `SubscriptionService.DeleteSubscription`. -/
def DeleteSubscription (db : DB) (subscriptionUUID : uuid.UUID) : Option String × DB :=
  let r := repository.DeleteSubscription db subscriptionUUID
  match r.1 with
  | some err => (some ("failed to delete subscription: " ++ err), r.2)
  | none => (none, r.2)

/-- Go's `SubscriptionService.CalculateSubscriptionsCost`: parses the start month, and
the end month when given, and returns what the data-access layer returns. -/
def CalculateSubscriptionsCost (L : CaseFolding) (db : DB) (userID : Option uuid.UUID)
    (serviceName : Option String) (startDateStr : String) (endDateStr : Option String)
    (now : time.Time) : (Int × Option String) × DB :=
  match time.Parse startDateStr with
  | .error err => ((0, some ("invalid start date format: " ++ err.Error)), db)
  | .ok startDate =>
    match endDateStr with
    | some text =>
      match time.Parse text with
      | .error err => ((0, some ("invalid end date format: " ++ err.Error)), db)
      | .ok parsedEndDate =>
        repository.GetSubscriptionsCost L db userID serviceName startDate (some parsedEndDate) now
    | none => repository.GetSubscriptionsCost L db userID serviceName startDate none now

end service

/-! ## Package `handler`

A handler takes the decoded request (`none` when decoding failed) and answers with a
status and a body. -/

namespace handler

open sql

/-- What a handler writes: the text of `http.Error`, or one of the JSON documents. -/
inductive Body where
  | text (msg : String)
  | created (id : String)
  | status (value : String)
  | subscriptions (subs : List sql_models.Subscription)
  | cost (total : Int) (start : String) (stop : Option String)
deriving DecidableEq

/-- An HTTP answer. -/
structure Response where
  status : Nat
  body : Body
deriving DecidableEq

/-- Go's `createSubscription` handler. -/
def createSubscription (db : DB) (body : Option json_models.CreateSubscription)
    (newID : uuid.UUID) (now : time.Time) : Response × DB :=
  match body with
  | none => (⟨400, .text "Invalid JSON format"⟩, db)
  | some subscription =>
    let errs := validator.StructCreateSubscription subscription
    if errs ≠ [] then (⟨422, .text (validator.errorText errs)⟩, db)
    else
      let r := service.CreateSubscription db subscription newID now
      match r.1.2 with
      | some _ => (⟨500, .text "Internal server error"⟩, r.2)
      | none =>
        if r.1.1 = "" then (⟨409, .text "Subscription already exists"⟩, r.2)
        else (⟨201, .created r.1.1⟩, r.2)

/-- Go's `getSubscription` handler; `userID` is the query parameter `user-id`, empty when
it is absent. -/
def getSubscription (db : DB) (userID : String) : Response × DB :=
  if userID = "" then (⟨400, .text "Missing user-id"⟩, db)
  else
    match uuid.Parse userID with
    | none => (⟨400, .text "Invalid UUID"⟩, db)
    | some userUUID =>
      let r := service.GetUserSubscriptions db userUUID
      match r.1.2 with
      | some _ => (⟨500, .text "Internal server error"⟩, r.2)
      | none => (⟨200, .subscriptions r.1.1⟩, r.2)

/-- Go's `updateSubscription` handler. -/
def updateSubscription (db : DB) (body : Option json_models.PutSubscription) :
    Response × DB :=
  match body with
  | none => (⟨400, .text "Invalid JSON format"⟩, db)
  | some subscription =>
    let errs := validator.StructPutSubscription subscription
    if errs ≠ [] then (⟨400, .text (validator.errorText errs)⟩, db)
    else
      let r := service.UpdateSubscription db subscription
      match r.1 with
      | some _ => (⟨500, .text "Internal server error"⟩, r.2)
      | none => (⟨202, .status "updated"⟩, r.2)

/-- Go's `deleteSubscription` handler; `subscriptionIDStr` is the query parameter
`subscription-id`.  On a service error it writes the text of the error. -/
def deleteSubscription (db : DB) (subscriptionIDStr : String) : Response × DB :=
  if subscriptionIDStr = "" then (⟨400, .text "Invalid query parameters"⟩, db)
  else
    match uuid.Parse subscriptionIDStr with
    | none => (⟨400, .text "Invalid user ID format"⟩, db)
    | some subscriptionUUID =>
      let r := service.DeleteSubscription db subscriptionUUID
      match r.1 with
      | some err => (⟨500, .text err⟩, r.2)
      | none => (⟨200, .status "deleted"⟩, r.2)

/-- Go's `calculateSubscriptionsCost` handler; `query` is the decoded query string,
`none` when `utils.QueryParser` failed. -/
def calculateSubscriptionsCost (L : CaseFolding) (db : DB) (query : Option json_models.CostRequest)
    (now : time.Time) : Response × DB :=
  match query with
  | none => (⟨400, .text "Invalid query parameters"⟩, db)
  | some req =>
    let errs := validator.StructCostRequest req
    if errs ≠ [] then (⟨400, .text (validator.errorText errs)⟩, db)
    else
      let parsed : Option (Option uuid.UUID) :=
        match req.UserID with
        | some text =>
          match uuid.Parse text with
          | none => none
          | some id => some (some id)
        | none => some none
      match parsed with
      | none => (⟨400, .text "Invalid user ID format"⟩, db)
      | some userID =>
        let r := service.CalculateSubscriptionsCost L db userID req.ServiceName req.StartDate
          req.EndDate now
        match r.1.2 with
        | some _ => (⟨500, .text "Internal server error"⟩, r.2)
        | none => (⟨200, .cost r.1.1 req.StartDate req.EndDate⟩, r.2)

end handler

/-! ## The vocabulary of the specification -/

namespace spec

/-- A decimal digit. -/
def isDigitChar (c : Char) : Bool := decide (48 ≤ c.toNat) && decide (c.toNat ≤ 57)

/-- The form `MM-YYYY` in the words of the specification: exactly a two-digit month from
01 to 12, a hyphen and a four-digit year. -/
def isMonthYear (s : String) : Bool :=
  match s.data with
  | [m1, m2, h, y1, y2, y3, y4] =>
    isDigitChar m1 && isDigitChar m2 && h == '-' && isDigitChar y1 && isDigitChar y2 &&
      isDigitChar y3 && isDigitChar y4 &&
      decide (1 ≤ time.digitVal m1 * 10 + time.digitVal m2) &&
      decide (time.digitVal m1 * 10 + time.digitVal m2 ≤ 12)
  | _ => false

/-- The month `MM` written in a text `MM-YYYY`. -/
def monthOf (s : String) : Nat :=
  match s.data with
  | m1 :: m2 :: _ => time.digitVal m1 * 10 + time.digitVal m2
  | _ => 0

/-- The year `YYYY` written in a text `MM-YYYY`. -/
def yearOf (s : String) : Int :=
  match s.data with
  | [_, _, _, y1, y2, y3, y4] =>
    ((time.digitVal y1 * 1000 + time.digitVal y2 * 100 + time.digitVal y3 * 10 +
      time.digitVal y4 : Nat) : Int)
  | _ => 0

/-- Equality of two texts ignoring letter case, the case of a letter being what the
database's folding `L` makes of it. -/
def equalFold (L : sql.CaseFolding) (a b : String) : Bool :=
  L.lower a.data == L.lower b.data

/-- A text free of the three characters a `LIKE` pattern reads specially: `%`, `_` and
the backslash. -/
def plainPattern (f : String) : Bool :=
  f.data.all (fun c => c != '%' && c != '_' && c != '\\')

/-- The rows the cost calculation counts, in the words of the specification: started at
or after the start month, without end or ended at or before the check date, owned by
the user when a user is given, and with a service name matching the filter when a
filter is given. -/
def qualifies (L : sql.CaseFolding) (u : Option uuid.UUID) (s : Option String)
    (d checkDate : time.Time)
    (r : sql_models.Subscription) : Bool :=
  d.le r.StartDate &&
  (match r.EndDate with
    | none => true
    | some e => e.le checkDate) &&
  (match u with
    | none => true
    | some v => r.UserID == v.String) &&
  (match s with
    | none => true
    | some f => sql.ilike L f r.ServiceName)

/-- The first day, at midnight UTC, of the month written in a text `MM-YYYY`. -/
def monthStart (s : String) : time.Time :=
  time.Date (yearOf s) (monthOf s) 1 0 0 0 0 time.UTC

/-- A hexadecimal digit of either case. -/
def isHexChar (c : Char) : Bool :=
  (decide (48 ≤ c.toNat) && decide (c.toNat ≤ 57)) ||
    (decide (97 ≤ c.toNat) && decide (c.toNat ≤ 102)) ||
    (decide (65 ≤ c.toNat) && decide (c.toNat ≤ 70))

/-- A UUID-formatted text in the words of the specification: hexadecimal digits in
groups of 8, 4, 4, 4 and 12 separated by hyphens, whatever the version and the letter
case. -/
def isUUIDText (s : String) : Bool :=
  let hyphen : Char → Bool := fun c => c == '-'
  validator.matchClasses
    (List.replicate 8 isHexChar ++ [hyphen] ++ List.replicate 4 isHexChar ++ [hyphen] ++
      List.replicate 4 isHexChar ++ [hyphen] ++ List.replicate 4 isHexChar ++ [hyphen] ++
      List.replicate 12 isHexChar)
    s.data

/-- The decimal number written by a run of digits. -/
def digitsValue (ds : List Char) : Nat :=
  ds.foldl (fun n c => n * 10 + time.digitVal c) 0

/-- The placeholders `$n` occurring in a statement text, in order of occurrence: each
dollar sign followed by at least one digit, read with all the digits that follow it. -/
def placeholders : List Char → List Nat
  | [] => []
  | '$' :: rest =>
    if (rest.takeWhile isDigitChar).isEmpty then placeholders rest
    else digitsValue (rest.takeWhile isDigitChar) :: placeholders rest
  | _ :: rest => placeholders rest

end spec

/-! ## Sample data -/

namespace sample

/-- A user identifier, `6ba7b810-9dad-41d1-80b4-00c04fd430c8`. -/
def userA : uuid.UUID :=
  ⟨[0x6b, 0xa7, 0xb8, 0x10, 0x9d, 0xad, 0x41, 0xd1, 0x80, 0xb4, 0x00, 0xc0, 0x4f, 0xd4, 0x30, 0xc8],
    rfl⟩

/-- A subscription identifier, `0f8fad5b-d9cb-469f-a165-70867728950e`. -/
def idOne : uuid.UUID :=
  ⟨[0x0f, 0x8f, 0xad, 0x5b, 0xd9, 0xcb, 0x46, 0x9f, 0xa1, 0x65, 0x70, 0x86, 0x77, 0x28, 0x95, 0x0e],
    rfl⟩

/-- Another subscription identifier, `7c9e6679-7425-40de-944b-e07fc1f90ae7`. -/
def idTwo : uuid.UUID :=
  ⟨[0x7c, 0x9e, 0x66, 0x79, 0x74, 0x25, 0x40, 0xde, 0x94, 0x4b, 0xe0, 0x7f, 0xc1, 0xf9, 0x0a, 0xe7],
    rfl⟩

/-- The first of January 2024, midnight UTC. -/
def jan2024 : time.Time := time.Date 2024 1 1 0 0 0 0 time.UTC

/-- A clock reading in June 2025. -/
def noon : time.Time := time.Date 2025 6 15 12 0 0 0 time.UTC

/-- An open-ended subscription of `userA` to Spotify at 500. -/
def spotify : sql_models.Subscription :=
  ⟨idOne.String, "Spotify", 500, userA.String, jan2024, none, noon⟩

/-- A subscription of `userA` whose service name holds a backslash. -/
def backslash : sql_models.Subscription :=
  ⟨idTwo.String, "a\\b", 300, userA.String, jan2024, none, noon⟩

/-- A store that answers, holding the Spotify row. -/
def store : sql.DB := ⟨[spotify], none, []⟩

/-- A create request of `userA` with an end month. -/
def createRequest : json_models.CreateSubscription :=
  ⟨"Netflix", 900, userA.String, "02-2024", some "12-2024"⟩

/-- An update request for the Spotify row with a new name, price and start month and
without an end date. -/
def fullUpdate : json_models.PutSubscription :=
  ⟨"Spotify Family", 800, idOne.String, "03-2024", none⟩

/-- An update request for the Spotify row that also sets an end month. -/
def fullUpdateWithEnd : json_models.PutSubscription :=
  ⟨"Spotify Family", 800, idOne.String, "03-2024", some "12-2024"⟩

/-- A UUID-formatted text of version 1, in lower case. -/
def versionOneUser : String := "6ba7b810-9dad-11d1-80b4-00c04fd430c8"

/-- The text of `userA` in upper case: a version-4 UUID text. -/
def upperCaseUser : String := "6BA7B810-9DAD-41D1-80B4-00C04FD430C8"

/-- The create request of the specification's example, for `userA`. -/
def spotifyRequest : json_models.CreateSubscription :=
  ⟨"Spotify", 500, userA.String, "01-2024", none⟩

/-- A store that answers and holds no row. -/
def emptyStore : sql.DB := ⟨[], none, []⟩

end sample

/-! ## Lemmas on the month layout -/

section MonthLayout

open time


theorem leadingInt_digit (c : Char) (cs : List Char) (x : Nat) (h1 : 48 ≤ c.toNat) (h2 : c.toNat ≤ 57)
    (hx : x ≤ 999) : leadingInt (c :: cs) x = leadingInt cs (x * 10 + digitVal c) := by
  have h3 : ¬ (c.toNat < 48 ∨ 57 < c.toNat) := by omega
  have h4 : ¬ (x > 2 ^ 63 / 10) := by norm_num; omega
  have h5 : ¬ (x * 10 + digitVal c > 2 ^ 63) := by
    unfold digitVal; norm_num; omega
  simp only [leadingInt, h3, h4, h5, if_false]


theorem digitVal_lt (c : Char) (h : spec.isDigitChar c = true) : digitVal c < 10 := by
  simp only [spec.isDigitChar, Bool.and_eq_true, decide_eq_true_eq] at h
  unfold digitVal; omega

theorem leadingInt_rem_nil (cs : List Char) : ∀ (x q : Nat), leadingInt cs x = some (q, []) →
    ∀ c ∈ cs, spec.isDigitChar c = true := by
  induction cs with
  | nil => intro x q _ c hc; simp at hc
  | cons d ds ih =>
    intro x q h c hc
    unfold leadingInt at h
    by_cases hd : d.toNat < 48 ∨ 57 < d.toNat
    · rw [if_pos hd] at h; simp at h
    · rw [if_neg hd] at h
      by_cases hx : x > 2 ^ 63 / 10
      · rw [if_pos hx] at h; simp at h
      · rw [if_neg hx] at h
        by_cases hy : x * 10 + digitVal d > 2 ^ 63
        · dsimp only at h; rw [if_pos hy] at h; simp at h
        · dsimp only at h; rw [if_neg hy] at h
          rcases List.mem_cons.mp hc with rfl | hc
          · simp only [spec.isDigitChar, Bool.and_eq_true, decide_eq_true_eq]; omega
          · exact ih _ _ h c hc

theorem getnum_fixed_some (cs : List Char) (m : Nat) (rest : List Char)
    (h : getnum cs true = some (m, rest)) :
    ∃ a b, cs = a :: b :: rest ∧ spec.isDigitChar a = true ∧ spec.isDigitChar b = true ∧
      m = digitVal a * 10 + digitVal b := by
  rcases cs with _ | ⟨a, _ | ⟨b, r⟩⟩
  · simp [getnum, isDigit] at h
  · simp [getnum, isDigit] at h
  · by_cases ha : spec.isDigitChar a = true
    · by_cases hb : spec.isDigitChar b = true
      · refine ⟨a, b, ?_, ha, hb, ?_⟩
        · simp only [spec.isDigitChar] at ha hb
          simp [getnum, isDigit, ha, hb] at h
          rw [h.2]
        · simp only [spec.isDigitChar] at ha hb
          simp [getnum, isDigit, ha, hb] at h
          exact h.1.symm
      · simp only [spec.isDigitChar] at ha hb
        simp [getnum, isDigit, ha, hb] at h
    · simp only [spec.isDigitChar] at ha
      simp [getnum, isDigit, ha] at h

theorem skip_hyphen_some (v1 v2 : List Char) (h : skip v1 ['-'] = some v2) : v1 = '-' :: v2 := by
  rcases v1 with _ | ⟨a, r⟩
  · simp [skip] at h
  · by_cases ha : a = '-'
    · subst ha; simp [skip] at h; rw [h]
    · simp [skip, ha] at h

theorem atoi_digits (p : List Char) (y : Int) (hd : isDigit p 0 = true) (h : atoi p = some y) :
    ∀ c ∈ p, spec.isDigitChar c = true := by
  rcases p with _ | ⟨a, r⟩
  · simp [isDigit] at hd
  · have ha : 48 ≤ a.toNat ∧ a.toNat ≤ 57 := by simpa [isDigit] using hd
    have e1 : a ≠ '-' := by rintro rfl; simp at ha
    have e2 : a ≠ '+' := by rintro rfl; simp at ha
    simp only [atoi, e1, e2, or_self, if_false] at h
    cases hl : leadingInt (a :: r) 0 with
    | none => rw [hl] at h; simp at h
    | some qr =>
      obtain ⟨q, rem⟩ := qr
      rw [hl] at h
      cases rem with
      | nil => exact leadingInt_rem_nil _ _ _ hl
      | cons _ _ => simp at h

theorem atoi_four (y1 y2 y3 y4 : Char)
    (hy1 : spec.isDigitChar y1 = true) (hy2 : spec.isDigitChar y2 = true)
    (hy3 : spec.isDigitChar y3 = true) (hy4 : spec.isDigitChar y4 = true) :
    atoi [y1, y2, y3, y4] =
      some ((digitVal y1 * 1000 + digitVal y2 * 100 + digitVal y3 * 10 + digitVal y4 : Nat) : Int) := by
  have b1 := digitVal_lt y1 hy1
  have b2 := digitVal_lt y2 hy2
  have b3 := digitVal_lt y3 hy3
  have b4 := digitVal_lt y4 hy4
  simp only [spec.isDigitChar, Bool.and_eq_true, decide_eq_true_eq] at hy1 hy2 hy3 hy4
  have e1 : y1 ≠ '-' := by rintro rfl; simp at hy1
  have e2 : y1 ≠ '+' := by rintro rfl; simp at hy1
  have hl : leadingInt [y1, y2, y3, y4] 0 =
      some (digitVal y1 * 1000 + digitVal y2 * 100 + digitVal y3 * 10 + digitVal y4, []) := by
    rw [leadingInt_digit y1 _ 0 hy1.1 hy1.2 (by omega),
      leadingInt_digit y2 _ _ hy2.1 hy2.2 (by omega),
      leadingInt_digit y3 _ _ hy3.1 hy3.2 (by omega),
      leadingInt_digit y4 _ _ hy4.1 hy4.2 (by omega)]
    simp only [leadingInt]
    congr 2
    omega
  simp [atoi, e1, e2, hl]

theorem parse_ok_of_form (m1 m2 y1 y2 y3 y4 : Char)
    (hm1 : spec.isDigitChar m1 = true) (hm2 : spec.isDigitChar m2 = true)
    (hy1 : spec.isDigitChar y1 = true) (hy2 : spec.isDigitChar y2 = true)
    (hy3 : spec.isDigitChar y3 = true) (hy4 : spec.isDigitChar y4 = true)
    (hlo : 1 ≤ digitVal m1 * 10 + digitVal m2) (hhi : digitVal m1 * 10 + digitVal m2 ≤ 12) :
    Parse (String.mk [m1, m2, '-', y1, y2, y3, y4]) =
      .ok (Date ((digitVal y1 * 1000 + digitVal y2 * 100 + digitVal y3 * 10 + digitVal y4 : Nat) : Int)
        (digitVal m1 * 10 + digitVal m2) 1 0 0 0 0 UTC) := by
  have ha := atoi_four y1 y2 y3 y4 hy1 hy2 hy3 hy4
  simp only [spec.isDigitChar, Bool.and_eq_true, decide_eq_true_eq] at hm1 hm2 hy1 hy2 hy3 hy4
  have hm : ¬ (digitVal m1 * 10 + digitVal m2 = 0 ∨ 12 < digitVal m1 * 10 + digitVal m2) := by omega
  have hg : getnum [m1, m2, '-', y1, y2, y3, y4] true =
      some (digitVal m1 * 10 + digitVal m2, ['-', y1, y2, y3, y4]) := by
    simp [getnum, isDigit, hm1, hm2]
  have hd : isDigit [y1, y2, y3, y4] 0 = true := by simp [isDigit, hy1]
  simp only [Parse, hg, hm, if_false, skip, if_true, List.length_cons, List.length_nil, hd,
    List.take, ha, List.drop]
  simp

theorem parse_ok_inv (s : String) (t : Time) (h : Parse s = .ok t) :
    ∃ m1 m2 y1 y2 y3 y4, s.data = [m1, m2, '-', y1, y2, y3, y4] ∧
      spec.isDigitChar m1 = true ∧ spec.isDigitChar m2 = true ∧
      spec.isDigitChar y1 = true ∧ spec.isDigitChar y2 = true ∧
      spec.isDigitChar y3 = true ∧ spec.isDigitChar y4 = true ∧
      1 ≤ digitVal m1 * 10 + digitVal m2 ∧ digitVal m1 * 10 + digitVal m2 ≤ 12 := by
  unfold Parse at h
  cases hg : getnum s.data true with
  | none => rw [hg] at h; simp at h
  | some mv =>
    obtain ⟨month, v1⟩ := mv
    rw [hg] at h
    dsimp only at h
    obtain ⟨m1, m2, hcs, hm1, hm2, hmonth⟩ := getnum_fixed_some _ _ _ hg
    by_cases hr : month = 0 ∨ 12 < month
    · rw [if_pos hr] at h; simp at h
    · rw [if_neg hr] at h
      cases hs : skip v1 ['-'] with
      | none => rw [hs] at h; simp at h
      | some v2 =>
        rw [hs] at h
        dsimp only at h
        have hv1 := skip_hyphen_some _ _ hs
        by_cases hl : v2.length < 4 ∨ (!isDigit v2 0) = true
        · rw [if_pos hl] at h; simp at h
        · rw [if_neg hl] at h
          cases ha : atoi (v2.take 4) with
          | none => rw [ha] at h; simp at h
          | some year =>
            rw [ha] at h
            dsimp only at h
            by_cases he : (v2.drop 4).length ≠ 0
            · rw [if_pos he] at h; simp at h
            · have hlen : v2.length = 4 := by
                simp only [List.length_drop, ne_eq, not_not] at he
                omega
              rcases v2 with _ | ⟨y1, _ | ⟨y2, _ | ⟨y3, _ | ⟨y4, _ | ⟨y5, r⟩⟩⟩⟩⟩ <;>
                simp at hlen
              have hd0 : isDigit [y1, y2, y3, y4] 0 = true := by
                simpa using hl
              have hall := atoi_digits _ _ hd0 (by simpa using ha)
              refine ⟨m1, m2, y1, y2, y3, y4, ?_, hm1, hm2, hall y1 (by simp), hall y2 (by simp),
                hall y3 (by simp), hall y4 (by simp), ?_, ?_⟩
              · rw [hcs, hv1]
              · omega
              · omega

theorem digitChar_of_digit (c : Char) (n : Nat) (hc : spec.isDigitChar c = true)
    (hn : n % 10 = digitVal c) : digitChar n = c := by
  simp only [spec.isDigitChar, Bool.and_eq_true, decide_eq_true_eq] at hc
  unfold digitChar
  rw [hn]
  unfold digitVal
  have : 48 + (c.toNat - 48) = c.toNat := by omega
  rw [this]
  exact Char.ofNat_toNat c

theorem format_of_form (m1 m2 y1 y2 y3 y4 : Char)
    (hm1 : spec.isDigitChar m1 = true) (hm2 : spec.isDigitChar m2 = true)
    (hy1 : spec.isDigitChar y1 = true) (hy2 : spec.isDigitChar y2 = true)
    (hy3 : spec.isDigitChar y3 = true) (hy4 : spec.isDigitChar y4 = true) :
    (Date ((digitVal y1 * 1000 + digitVal y2 * 100 + digitVal y3 * 10 + digitVal y4 : Nat) : Int)
        (digitVal m1 * 10 + digitVal m2) 1 0 0 0 0 UTC).Format =
      String.mk [m1, m2, '-', y1, y2, y3, y4] := by
  have b1 := digitVal_lt m1 hm1
  have b2 := digitVal_lt m2 hm2
  have c1 := digitVal_lt y1 hy1
  have c2 := digitVal_lt y2 hy2
  have c3 := digitVal_lt y3 hy3
  have c4 := digitVal_lt y4 hy4
  have hmonth : appendInt ((digitVal m1 * 10 + digitVal m2 : Nat) : Int) 2 = [m1, m2] := by
    unfold appendInt
    have hneg : ¬ (((digitVal m1 * 10 + digitVal m2 : Nat) : Int) < 0) := by omega
    have hlt : (2 = 2 ∧ (digitVal m1 * 10 + digitVal m2) < 100) := ⟨rfl, by omega⟩
    simp only [Int.natAbs_ofNat, hneg, if_false, hlt, and_self, if_true, List.nil_append]
    rw [digitChar_of_digit m1 _ hm1 (by omega), digitChar_of_digit m2 _ hm2 (by omega)]
  have hyear : appendInt ((digitVal y1 * 1000 + digitVal y2 * 100 + digitVal y3 * 10 +
      digitVal y4 : Nat) : Int) 4 = [y1, y2, y3, y4] := by
    unfold appendInt
    have hneg : ¬ (((digitVal y1 * 1000 + digitVal y2 * 100 + digitVal y3 * 10 +
      digitVal y4 : Nat) : Int) < 0) := by omega
    have h2 : ¬ ((4 : Nat) = 2 ∧ (digitVal y1 * 1000 + digitVal y2 * 100 + digitVal y3 * 10 +
      digitVal y4) < 100) := by omega
    have h4 : ((4 : Nat) = 4 ∧ (digitVal y1 * 1000 + digitVal y2 * 100 + digitVal y3 * 10 +
      digitVal y4) < 10000) := ⟨rfl, by omega⟩
    simp only [Int.natAbs_ofNat, hneg, if_false, h2, h4, and_self, if_true, List.nil_append]
    rw [digitChar_of_digit y1 _ hy1 (by omega), digitChar_of_digit y2 _ hy2 (by omega),
      digitChar_of_digit y3 _ hy3 (by omega), digitChar_of_digit y4 _ hy4 (by omega)]
  simp only [Time.Format, Date, hmonth, hyear]
  rfl

end MonthLayout

/-! ## Dates: round trip, first day of the month, malformed texts -/

section Dates
open time

theorem isMonthYear_inv (s : String) (h : spec.isMonthYear s = true) :
    ∃ m1 m2 y1 y2 y3 y4, s = String.mk [m1, m2, '-', y1, y2, y3, y4] ∧
      spec.isDigitChar m1 = true ∧ spec.isDigitChar m2 = true ∧
      spec.isDigitChar y1 = true ∧ spec.isDigitChar y2 = true ∧
      spec.isDigitChar y3 = true ∧ spec.isDigitChar y4 = true ∧
      1 ≤ digitVal m1 * 10 + digitVal m2 ∧ digitVal m1 * 10 + digitVal m2 ≤ 12 := by
  obtain ⟨cs⟩ := s
  rcases cs with _ | ⟨a, _ | ⟨b, _ | ⟨c, _ | ⟨d, _ | ⟨e, _ | ⟨f, _ | ⟨g, _ | ⟨i, r⟩⟩⟩⟩⟩⟩⟩⟩ <;>
    simp only [spec.isMonthYear, Bool.false_eq_true] at h
  simp only [Bool.and_eq_true, beq_iff_eq, decide_eq_true_eq] at h
  obtain ⟨⟨⟨⟨⟨⟨⟨⟨h1, h2⟩, h3⟩, h4⟩, h5⟩, h6⟩, h7⟩, h8⟩, h9⟩ := h
  subst h3
  exact ⟨a, b, d, e, f, g, rfl, h1, h2, h4, h5, h6, h7, h8, h9⟩

theorem isMonthYear_of_parse (s : String) (t : Time) (h : Parse s = .ok t) :
    spec.isMonthYear s = true := by
  obtain ⟨m1, m2, y1, y2, y3, y4, hs, h1, h2, h4, h5, h6, h7, h8, h9⟩ := parse_ok_inv s t h
  obtain ⟨cs⟩ := s
  simp only at hs
  subst hs
  simp [spec.isMonthYear, h1, h2, h4, h5, h6, h7, h8, h9]

theorem parse_error_of_not_form (s : String) (h : spec.isMonthYear s = false) :
    ∃ e, Parse s = .error e := by
  cases hp : Parse s with
  | error e => exact ⟨e, rfl⟩
  | ok t => rw [isMonthYear_of_parse s t hp] at h; cases h

theorem isDatetime_eq_isMonthYear (s : String) : validator.isDatetime s = spec.isMonthYear s := by
  unfold validator.isDatetime
  cases hp : Parse s with
  | error e =>
    cases hm : spec.isMonthYear s with
    | false => rfl
    | true =>
      obtain ⟨m1, m2, y1, y2, y3, y4, hs, h1, h2, h4, h5, h6, h7, h8, h9⟩ := isMonthYear_inv s hm
      subst hs
      rw [parse_ok_of_form m1 m2 y1 y2 y3 y4 h1 h2 h4 h5 h6 h7 h8 h9] at hp
      cases hp
  | ok t => exact (isMonthYear_of_parse s t hp).symm

theorem parse_format_of_isMonthYear (s : String) (h : spec.isMonthYear s = true) :
    ∃ t, Parse s = .ok t ∧ t.month = spec.monthOf s ∧ t.year = spec.yearOf s ∧
      t.Format = s := by
  obtain ⟨m1, m2, y1, y2, y3, y4, hs, h1, h2, h4, h5, h6, h7, h8, h9⟩ := isMonthYear_inv s h
  subst hs
  refine ⟨_, parse_ok_of_form m1 m2 y1 y2 y3 y4 h1 h2 h4 h5 h6 h7 h8 h9, rfl, rfl, ?_⟩
  exact format_of_form m1 m2 y1 y2 y3 y4 h1 h2 h4 h5 h6 h7

/-- C4: every text `MM-YYYY` (two-digit month 01..12, hyphen, four-digit year) parses in
the month layout of the service, the parsed value has month `MM` and year `YYYY`, and
formatting it in the same layout gives the text back. -/
theorem month_layout_roundtrip (s : String) (h : spec.isMonthYear s = true) :
    ∃ t, Parse s = .ok t ∧ t.month = spec.monthOf s ∧ t.year = spec.yearOf s ∧
      t.Format = s := by
  obtain ⟨m1, m2, y1, y2, y3, y4, hs, h1, h2, h4, h5, h6, h7, h8, h9⟩ := isMonthYear_inv s h
  subst hs
  have hparse := parse_ok_of_form m1 m2 y1 y2 y3 y4 h1 h2 h4 h5 h6 h7 h8 h9
  have hformat := format_of_form m1 m2 y1 y2 y3 y4 h1 h2 h4 h5 h6 h7
  exact ⟨_, hparse, rfl, rfl, hformat⟩

theorem month_layout_roundtrip_witness :
    spec.isMonthYear "01-2024" = true ∧
      ∃ t, Parse "01-2024" = .ok t ∧ t.month = spec.monthOf "01-2024" ∧
        t.year = spec.yearOf "01-2024" ∧ t.Format = "01-2024" :=
  ⟨by decide, month_layout_roundtrip "01-2024" (by decide)⟩

theorem parse_ok_first_of_month (s : String) (t : Time) (h : Parse s = .ok t) :
    t = Date (spec.yearOf s) (spec.monthOf s) 1 0 0 0 0 UTC := by
  obtain ⟨t2, hp, hm, hy, _⟩ := parse_format_of_isMonthYear s (isMonthYear_of_parse s t h)
  rw [hp] at h
  cases h
  obtain ⟨m1, m2, y1, y2, y3, y4, hs, h1, h2, h4, h5, h6, h7, h8, h9⟩ :=
    isMonthYear_inv s (isMonthYear_of_parse s _ hp)
  subst hs
  rw [parse_ok_of_form m1 m2 y1 y2 y3 y4 h1 h2 h4 h5 h6 h7 h8 h9] at hp
  cases hp
  rfl

end Dates

section Malformed
open time

theorem requiredDatetime_ne_nil (ns field value : String) (h : validator.isDatetime value = false) :
    validator.requiredDatetime ns field value ≠ [] := by
  unfold validator.requiredDatetime
  by_cases hv : value = ""
  · simp [hv]
  · simp [hv, h]

theorem omitemptyDatetime_ne_nil (ns field value : String)
    (h : validator.isDatetime value = false) :
    validator.omitemptyDatetime ns field (some value) ≠ [] := by
  simp [validator.omitemptyDatetime, h]

theorem create_invalid_of_bad_date (req : json_models.CreateSubscription) (s : String)
    (h : validator.isDatetime s = false) (hs : req.StartDate = s ∨ req.EndDate = some s) :
    validator.StructCreateSubscription req ≠ [] := by
  unfold validator.StructCreateSubscription
  rcases hs with hs | hs
  · have := requiredDatetime_ne_nil "CreateSubscription" "StartDate" req.StartDate (hs ▸ h)
    simp [this]
  · have := omitemptyDatetime_ne_nil "CreateSubscription" "EndDate" s h
    rw [hs]
    simp [this]

theorem put_invalid_of_bad_date (req : json_models.PutSubscription) (s : String)
    (h : validator.isDatetime s = false) (hs : req.StartDate = s ∨ req.EndDate = some s) :
    validator.StructPutSubscription req ≠ [] := by
  unfold validator.StructPutSubscription
  rcases hs with hs | hs
  · subst hs
    simp [h]
  · have := omitemptyDatetime_ne_nil "PutSubscription" "EndDate" s h
    rw [hs]
    simp [this]

theorem cost_invalid_of_bad_date (req : json_models.CostRequest) (s : String)
    (h : validator.isDatetime s = false) (hs : req.StartDate = s ∨ req.EndDate = some s) :
    validator.StructCostRequest req ≠ [] := by
  unfold validator.StructCostRequest
  rcases hs with hs | hs
  · have := requiredDatetime_ne_nil "CostRequest" "StartDate" req.StartDate (hs ▸ h)
    simp [this]
  · have := omitemptyDatetime_ne_nil "CostRequest" "EndDate" s h
    rw [hs]
    simp [this]

theorem service_create_bad_date (db : sql.DB) (req : json_models.CreateSubscription)
    (newID : uuid.UUID) (now : Time) (s : String) (e : ParseError) (h : Parse s = .error e)
    (hs : req.StartDate = s ∨ req.EndDate = some s) :
    (service.CreateSubscription db req newID now).1.1 = "" ∧
      (service.CreateSubscription db req newID now).1.2 ≠ none ∧
      (service.CreateSubscription db req newID now).2 = db := by
  unfold service.CreateSubscription
  cases hp : Parse req.StartDate with
  | error e2 => simp
  | ok t =>
    rcases hs with hs | hs
    · rw [hs, h] at hp; cases hp
    · rw [hs]; simp [h]

theorem service_update_bad_date (db : sql.DB) (req : json_models.PutSubscription)
    (s : String) (e : ParseError) (h : Parse s = .error e)
    (hs : (req.StartDate = s ∧ s ≠ "") ∨ req.EndDate = some s) :
    (service.UpdateSubscription db req).1 ≠ none ∧ (service.UpdateSubscription db req).2 = db := by
  unfold service.UpdateSubscription
  rcases hs with ⟨hs, hne⟩ | hs
  · subst hs
    simp [hne, h]
  · by_cases h0 : req.StartDate = ""
    · simp [h0, hs, h]
    · cases hp : Parse req.StartDate with
      | error e2 => simp [h0, hp]
      | ok t => simp [h0, hp, hs, h]

theorem service_cost_bad_date (L : sql.CaseFolding) (db : sql.DB) (u : Option uuid.UUID)
    (name : Option String) (start : String) (stop : Option String) (now : Time) (s : String) (e : ParseError)
    (h : Parse s = .error e) (hs : start = s ∨ stop = some s) :
    (service.CalculateSubscriptionsCost L db u name start stop now).1.2 ≠ none ∧
      (service.CalculateSubscriptionsCost L db u name start stop now).2 = db := by
  unfold service.CalculateSubscriptionsCost
  cases hp : Parse start with
  | error e2 => simp
  | ok t =>
    rcases hs with hs | hs
    · rw [hs, h] at hp; cases hp
    · rw [hs]; simp [h]

/-- C5: a date text that is not exactly a two-digit month 01..12, a hyphen and a
four-digit year does not parse; a create, update or cost request carrying it as start
or end date is answered with the validation error (422 for create, 400 for update and
cost) and leaves the store and its statement log untouched; the service functions
themselves also fail before the store (for the update, on a start text that is not
empty). -/
theorem malformed_date_rejected (L : sql.CaseFolding) (s : String)
    (h : spec.isMonthYear s = false) :
    (∃ e, Parse s = .error e) ∧
    (∀ (db : sql.DB) (req : json_models.CreateSubscription) (newID : uuid.UUID) (now : Time),
      req.StartDate = s ∨ req.EndDate = some s →
      handler.createSubscription db (some req) newID now =
        (⟨422, .text (validator.errorText (validator.StructCreateSubscription req))⟩, db)) ∧
    (∀ (db : sql.DB) (req : json_models.PutSubscription),
      req.StartDate = s ∨ req.EndDate = some s →
      handler.updateSubscription db (some req) =
        (⟨400, .text (validator.errorText (validator.StructPutSubscription req))⟩, db)) ∧
    (∀ (db : sql.DB) (req : json_models.CostRequest) (now : Time),
      req.StartDate = s ∨ req.EndDate = some s →
      handler.calculateSubscriptionsCost L db (some req) now =
        (⟨400, .text (validator.errorText (validator.StructCostRequest req))⟩, db)) ∧
    (∀ (db : sql.DB) (req : json_models.CreateSubscription) (newID : uuid.UUID) (now : Time),
      req.StartDate = s ∨ req.EndDate = some s →
      (service.CreateSubscription db req newID now).1.2 ≠ none ∧
        (service.CreateSubscription db req newID now).2 = db) ∧
    (∀ (db : sql.DB) (req : json_models.PutSubscription),
      (req.StartDate = s ∧ s ≠ "") ∨ req.EndDate = some s →
      (service.UpdateSubscription db req).1 ≠ none ∧
        (service.UpdateSubscription db req).2 = db) ∧
    (∀ (db : sql.DB) (u : Option uuid.UUID) (name : Option String) (start : String)
      (stop : Option String) (now : Time), start = s ∨ stop = some s →
      (service.CalculateSubscriptionsCost L db u name start stop now).1.2 ≠ none ∧
        (service.CalculateSubscriptionsCost L db u name start stop now).2 = db) := by
  obtain ⟨e, he⟩ := parse_error_of_not_form s h
  have hd : validator.isDatetime s = false := by rw [isDatetime_eq_isMonthYear, h]
  refine ⟨⟨e, he⟩, ?_, ?_, ?_, ?_, ?_, ?_⟩
  · intro db req newID now hs
    have hne := create_invalid_of_bad_date req s hd hs
    simp [handler.createSubscription, hne]
  · intro db req hs
    have hne := put_invalid_of_bad_date req s hd hs
    simp [handler.updateSubscription, hne]
  · intro db req now hs
    have hne := cost_invalid_of_bad_date req s hd hs
    simp [handler.calculateSubscriptionsCost, hne]
  · intro db req newID now hs
    exact (service_create_bad_date db req newID now s e he hs).2
  · intro db req hs
    exact service_update_bad_date db req s e he hs
  · intro db u name start stop now hs
    exact service_cost_bad_date L db u name start stop now s e he hs

theorem malformed_date_rejected_witness :
    spec.isMonthYear "13-2024" = false ∧ spec.isMonthYear "01/2024" = false ∧
      spec.isMonthYear "01-024" = false ∧
      (∃ e, Parse "13-2024" = .error e) ∧ (∃ e, Parse "01/2024" = .error e) ∧
      (∃ e, Parse "01-024" = .error e) :=
  ⟨by decide, by decide, by decide,
    (malformed_date_rejected sql.CaseFolding.ascii "13-2024" (by decide)).1,
    (malformed_date_rejected sql.CaseFolding.ascii "01/2024" (by decide)).1,
    (malformed_date_rejected sql.CaseFolding.ascii "01-024" (by decide)).1⟩

end Malformed

/-! ## The cost calculation -/

section Cost
open sql

theorem failure_of_no_fault (db : DB) (stage : Stage) (hf : db.fault = none) :
    db.failure stage = none := by
  simp [DB.failure, hf]

theorem repository_get_of_no_fault (db : DB) (userID : uuid.UUID) (hf : db.fault = none) :
    repository.GetSubscriptions db userID =
      ((db.rows.filter (fun r => r.UserID == userID.String), none),
        db.sent repository.selectQuery [Value.text userID.String]) := by
  simp [repository.GetSubscriptions, failure_of_no_fault db _ hf]

theorem sumPrice_getD (rows : List sql_models.Subscription) :
    (sumPrice rows).getD 0 = (rows.map (fun r => r.Price)).sum := by
  cases rows <;> simp [sumPrice]

theorem costStatement_holds (L : CaseFolding) (u : Option uuid.UUID) (s : Option String)
    (d : time.Time) (e : Option time.Time) (now : time.Time) (r : sql_models.Subscription) :
    ((repository.costStatement u s d e now).conds.all
        (fun c => c.holds L (repository.costStatement u s d e now).args r)) =
      spec.qualifies L u s d (e.getD now) r := by
  cases u <;> cases s <;> cases e <;>
    simp [repository.costStatement, spec.qualifies, Pred.holds, param, Bool.and_assoc]

/-- C1: when the store answers, `GetSubscriptionsCost` returns, without error, the sum of
`price` over exactly the rows with `start_date >= d` and (`end_date` null or
`end_date <= e'`), `e'` being the given end month or else the current time, restricted to
the user when one is given and to the service names matching the filter when one is
given; it returns 0 when no row qualifies; and the service function returns the same for
the month texts that parse to `d` and `e`. -/
theorem cost_is_sum_over_qualifying_rows (L : CaseFolding) (db : DB) (u : Option uuid.UUID)
    (s : Option String) (d : time.Time) (e : Option time.Time) (now : time.Time) (hf : db.fault = none) :
    (repository.GetSubscriptionsCost L db u s d e now).1 =
      (((db.rows.filter (spec.qualifies L u s d (e.getD now))).map (fun r => r.Price)).sum,
        none) ∧
    ((∀ r ∈ db.rows, spec.qualifies L u s d (e.getD now) r = false) →
      (repository.GetSubscriptionsCost L db u s d e now).1 = (0, none)) ∧
    (∀ (start : String) (stop : Option String), time.Parse start = .ok d →
      (match stop with
        | none => e = none
        | some text => ∃ t, time.Parse text = .ok t ∧ e = some t) →
      service.CalculateSubscriptionsCost L db u s start stop now =
        repository.GetSubscriptionsCost L db u s d e now) := by
  have h1 : (repository.GetSubscriptionsCost L db u s d e now).1 =
      (((db.rows.filter (spec.qualifies L u s d (e.getD now))).map (fun r => r.Price)).sum,
        none) := by
    simp only [repository.GetSubscriptionsCost, failure_of_no_fault db _ hf, Option.orElse_none,
      selectCost, sumPrice_getD]
    have : (fun r => (repository.costStatement u s d e now).conds.all
        (fun c => c.holds L (repository.costStatement u s d e now).args r)) =
        spec.qualifies L u s d (e.getD now) := by
      funext r
      exact costStatement_holds L u s d e now r
    rw [this]
  refine ⟨h1, ?_, ?_⟩
  · intro hno
    rw [h1]
    have : db.rows.filter (spec.qualifies L u s d (e.getD now)) = [] := by
      rw [List.filter_eq_nil_iff]
      intro r hr
      simp [hno r hr]
    rw [this]
    rfl
  · intro start stop hp hstop
    unfold service.CalculateSubscriptionsCost
    rw [hp]
    cases stop with
    | none => simp only at hstop; subst hstop; rfl
    | some text =>
      obtain ⟨t, ht, he⟩ := hstop
      subst he
      simp only [ht]

theorem cost_is_sum_over_qualifying_rows_witness :
    sample.store.fault = none ∧
      (repository.GetSubscriptionsCost CaseFolding.ascii sample.store (some sample.userA)
        (some "spotify") sample.jan2024 none sample.noon).1 = (500, none) :=
  ⟨rfl, (cost_is_sum_over_qualifying_rows CaseFolding.ascii sample.store (some sample.userA)
    (some "spotify") sample.jan2024 none sample.noon rfl).1.trans (by decide)⟩

end Cost

/-! ## The service-name filter -/

section Filter
open sql

theorem like_plain (p : List Char) :
    ∀ t : List Char, (∀ c ∈ p, c ≠ '%' ∧ c ≠ '_' ∧ c ≠ '\\') → like p t = (p == t) := by
  induction p with
  | nil => intro t _; cases t <;> simp [like]
  | cons c p ih =>
    intro t hp
    obtain ⟨h1, h2, h3⟩ := hp c (List.mem_cons_self c p)
    have hrest : ∀ d ∈ p, d ≠ '%' ∧ d ≠ '_' ∧ d ≠ '\\' :=
      fun d hd => hp d (List.mem_cons_of_mem c hd)
    cases t with
    | nil => 
      rw [like]
      · simp
      all_goals simp_all
    | cons x rest =>
      rw [like]
      · rw [ih rest hrest]
        by_cases hxc : x = c
        · subst hxc; simp
        · have hcx : ¬ c = x := fun h => hxc h.symm
          have e1 : (x == c) = false := beq_false_of_ne hxc
          have e2 : (c == x) = false := beq_false_of_ne hcx
          rw [List.cons_beq_cons, e1, e2]
      all_goals simp_all

theorem ilike_plain (L : CaseFolding) (f name : String) (h : spec.plainPattern f = true) :
    ilike L f name = spec.equalFold L f name := by
  unfold ilike spec.equalFold
  apply like_plain
  apply L.lower_plain
  intro c hc
  have := (List.all_eq_true.mp h) c hc
  simpa [and_assoc] using this

/-- C2 (counterexample): the filter `%` differs from `Spotify` in more than letter case,
yet the Spotify row passes the service-name predicate and is counted; and a row named
`a\b` equals the filter `a\b` but does not pass. The folding is that of the ASCII
letters; neither text holds a letter outside them. -/
theorem service_filter_is_a_pattern :
    spec.equalFold CaseFolding.ascii "%" sample.spotify.ServiceName = false ∧
      (Pred.serviceNameILike 3).holds CaseFolding.ascii
        [Value.time sample.jan2024, Value.time sample.noon, Value.text "%"]
        sample.spotify = true ∧
      (repository.GetSubscriptionsCost CaseFolding.ascii sample.store none (some "%")
        sample.jan2024 none sample.noon).1 = (500, none) ∧
      spec.equalFold CaseFolding.ascii "a\\b" sample.backslash.ServiceName = true ∧
      (Pred.serviceNameILike 3).holds CaseFolding.ascii
        [Value.time sample.jan2024, Value.time sample.noon, Value.text "a\\b"]
        sample.backslash = false := by
  decide

/-- C2 (amended): for a filter free of the pattern characters `%`, `_` and backslash, and
whatever case folding `L` the database applies, a row passes the service-name predicate
of the cost statement exactly when its `service_name` equals the filter ignoring letter
case, that is when both fold to the same text under `L`: with the filter, a row satisfies
the statement's conditions iff it satisfies those of the statement without the filter
and has such a name (so filter `Netflix` keeps a row named `netflix`, and under a folding
of the Cyrillic letters the filter `яндекс` keeps a row named `Яндекс`). -/
theorem plain_service_filter_is_case_insensitive_equality (L : CaseFolding) (f : String)
    (hplain : spec.plainPattern f = true) (u : Option uuid.UUID) (d : time.Time)
    (e : Option time.Time) (now : time.Time) (r : sql_models.Subscription) :
    ((repository.costStatement u (some f) d e now).conds.all
        (fun c => c.holds L (repository.costStatement u (some f) d e now).args r)) =
      (((repository.costStatement u none d e now).conds.all
        (fun c => c.holds L (repository.costStatement u none d e now).args r)) &&
        spec.equalFold L f r.ServiceName) := by
  rw [costStatement_holds, costStatement_holds, ← ilike_plain L f r.ServiceName hplain]
  simp [spec.qualifies]

theorem plain_service_filter_is_case_insensitive_equality_witness :
    (spec.plainPattern "Netflix" = true ∧
      spec.equalFold CaseFolding.ascii "Netflix" "netflix" = true ∧
      ((repository.costStatement none (some "Netflix") sample.jan2024 none sample.noon).conds.all
        (fun c => c.holds CaseFolding.ascii
          (repository.costStatement none (some "Netflix") sample.jan2024 none sample.noon).args
          { sample.spotify with ServiceName := "netflix" })) = true) ∧
    (spec.plainPattern "яндекс" = true ∧
      spec.equalFold CaseFolding.russian "яндекс" "Яндекс" = true ∧
      ((repository.costStatement none (some "яндекс") sample.jan2024 none sample.noon).conds.all
        (fun c => c.holds CaseFolding.russian
          (repository.costStatement none (some "яндекс") sample.jan2024 none sample.noon).args
          { sample.spotify with ServiceName := "Яндекс" })) = true) :=
  ⟨⟨by decide, by decide,
    (plain_service_filter_is_case_insensitive_equality CaseFolding.ascii "Netflix" (by decide)
      none sample.jan2024 none sample.noon { sample.spotify with ServiceName := "netflix" }).trans
      (by decide)⟩,
   ⟨by decide, by decide,
    (plain_service_filter_is_case_insensitive_equality CaseFolding.russian "яндекс" (by decide)
      none sample.jan2024 none sample.noon { sample.spotify with ServiceName := "Яндекс" }).trans
      (by decide)⟩⟩

end Filter

/-! ## The text of the cost statement -/

section QueryText
open sql

/-- C3: the text of the cost statement is determined by which of the two optional
filters are present: two calls with the same presence pattern build the same text,
whatever the user id, service name, dates and clock; the text is the fixed head followed
by the placeholder conjuncts of the filters present; and the caller's values are exactly
the bound arguments, in placeholder order, which is what is sent to the store. -/
theorem cost_query_text_depends_only_on_filter_presence
    (u u2 : Option uuid.UUID) (s s2 : Option String) (d d2 : time.Time)
    (e e2 : Option time.Time) (now now2 : time.Time)
    (hu : u.isSome = u2.isSome) (hs : s.isSome = s2.isSome) :
    (repository.costStatement u s d e now).text =
      (repository.costStatement u2 s2 d2 e2 now2).text ∧
    (repository.costStatement u s d e now).text =
      repository.costQuery ++
        (if u.isSome then " AND user_id = $3" else "") ++
        (if s.isSome then (if u.isSome then " AND service_name ILIKE $4"
          else " AND service_name ILIKE $3") else "") ∧
    (repository.costStatement u s d e now).args =
      [Value.time d, Value.time (e.getD now)] ++
        (u.map (fun v => Value.text v.String)).toList ++ (s.map Value.text).toList ∧
    (∀ (L : CaseFolding) (db : DB), (repository.GetSubscriptionsCost L db u s d e now).2.log =
      db.log ++ [((repository.costStatement u s d e now).text,
        (repository.costStatement u s d e now).args)]) := by
  refine ⟨?_, ?_, ?_, ?_⟩
  · cases u <;> cases u2 <;> cases s <;> cases s2 <;> simp at hu hs <;>
      simp [repository.costStatement]
  · cases u <;> cases s <;> simp [repository.costStatement] <;> rfl
  · cases u <;> cases s <;> cases e <;> simp [repository.costStatement]
  · intro L db
    unfold repository.GetSubscriptionsCost
    cases db.failure .send <|> db.failure .iteration <|> db.failure .scan <;> simp [DB.sent]

theorem cost_query_text_depends_only_on_filter_presence_witness :
    (some sample.userA).isSome = (some sample.idOne).isSome ∧
      (some "Netflix").isSome = (some "x\x27; DROP TABLE subscriptions; --").isSome ∧
      (repository.costStatement (some sample.userA) (some "Netflix") sample.jan2024 none
        sample.noon).text =
      (repository.costStatement (some sample.idOne)
        (some "x\x27; DROP TABLE subscriptions; --") sample.noon (some sample.jan2024)
        sample.jan2024).text :=
  ⟨rfl, rfl, (cost_query_text_depends_only_on_filter_presence (some sample.userA)
    (some sample.idOne) (some "Netflix") (some "x\x27; DROP TABLE subscriptions; --")
    sample.jan2024 sample.noon none (some sample.jan2024) sample.noon sample.jan2024
    rfl rfl).1⟩

end QueryText

/-! ## Creating and reading back -/

section Create
open sql

theorem requiredDatetime_nil (ns field value : String)
    (h : validator.requiredDatetime ns field value = []) : validator.isDatetime value = true := by
  unfold validator.requiredDatetime at h
  by_cases hv : value = ""
  · simp [hv] at h
  · cases hd : validator.isDatetime value with
    | true => rfl
    | false => simp [hv, hd] at h

theorem omitemptyDatetime_nil (ns field text : String)
    (h : validator.omitemptyDatetime ns field (some text) = []) :
    validator.isDatetime text = true := by
  cases hd : validator.isDatetime text with
  | true => rfl
  | false => simp [validator.omitemptyDatetime, hd] at h

theorem create_valid_inv (req : json_models.CreateSubscription)
    (h : validator.StructCreateSubscription req = []) :
    req.ServiceName ≠ "" ∧ 0 < req.Price ∧ validator.isUUID4 req.UserID = true ∧
      validator.isDatetime req.StartDate = true ∧
      ∀ text, req.EndDate = some text → validator.isDatetime text = true := by
  unfold validator.StructCreateSubscription at h
  simp only [List.append_eq_nil] at h
  obtain ⟨⟨⟨⟨h1, h2⟩, h3⟩, h4⟩, h5⟩ := h
  refine ⟨?_, ?_, ?_, requiredDatetime_nil _ _ _ h4, ?_⟩
  · intro hn; simp [hn] at h1
  · by_cases hp : req.Price = 0
    · simp [hp] at h2
    · by_cases hq : req.Price > 0
      · exact hq
      · simp [hp, hq] at h2
  · by_cases hp : req.UserID = ""
    · simp [hp] at h3
    · cases hd : validator.isUUID4 req.UserID with
      | true => rfl
      | false => simp [hp, hd] at h3
  · intro text ht
    rw [ht] at h5
    exact omitemptyDatetime_nil _ _ _ h5

theorem parse_of_isDatetime (s : String) (h : validator.isDatetime s = true) :
    time.Parse s = .ok (time.Date (spec.yearOf s) (spec.monthOf s) 1 0 0 0 0 time.UTC) := by
  rw [isDatetime_eq_isMonthYear] at h
  obtain ⟨t, hp, _⟩ := parse_format_of_isMonthYear s h
  rw [hp, parse_ok_first_of_month s t hp]

/-- C7: for a create request that passes validation, with the store answering: the call
returns the new id without error and appends one row carrying it; without `end_date` the
row has a null `end_date` and `GetSubscriptions` for the request's user returns it with
no end date; with `end_date` given as `MM-YYYY` the row and the returned record carry
an end date whose month and year are the given ones (and which formats back to the
text). -/
theorem created_subscription_is_retrievable (db : DB) (req : json_models.CreateSubscription)
    (newID u : uuid.UUID) (now : time.Time)
    (hv : validator.StructCreateSubscription req = []) (hf : db.fault = none)
    (hu : u.String = req.UserID) :
    (service.CreateSubscription db req newID now).1 = (newID.String, none) ∧
    (repository.GetSubscriptions (service.CreateSubscription db req newID now).2 u).1.2 = none ∧
    (req.EndDate = none →
      ∃ row, (service.CreateSubscription db req newID now).2.rows = db.rows ++ [row] ∧
        row.ID = newID.String ∧ row.UserID = req.UserID ∧ row.EndDate = none ∧
        row ∈ (repository.GetSubscriptions
          (service.CreateSubscription db req newID now).2 u).1.1) ∧
    (∀ text, req.EndDate = some text →
      ∃ row t, (service.CreateSubscription db req newID now).2.rows = db.rows ++ [row] ∧
        row.ID = newID.String ∧ row.UserID = req.UserID ∧ row.EndDate = some t ∧
        t.month = spec.monthOf text ∧ t.year = spec.yearOf text ∧ t.Format = text ∧
        row ∈ (repository.GetSubscriptions
          (service.CreateSubscription db req newID now).2 u).1.1) := by
  obtain ⟨_, _, _, hstart, hend⟩ := create_valid_inv req hv
  have hps := parse_of_isDatetime _ hstart
  cases hE : req.EndDate with
  | none =>
    have hc : service.CreateSubscription db req newID now =
        repository.InsertSubscription db req.ServiceName req.Price req.UserID
          (time.Date (spec.yearOf req.StartDate) (spec.monthOf req.StartDate) 1 0 0 0 0 time.UTC)
          none newID now := by
      unfold service.CreateSubscription
      rw [hps, hE]
    rw [hc]
    simp only [repository.InsertSubscription, DB.failure, hf, repository.GetSubscriptions,
      DB.sent, ite_self]
    refine ⟨trivial, trivial, ?_, ?_⟩
    · intro _
      refine ⟨_, rfl, rfl, rfl, rfl, ?_⟩
      simp [hu]
    · intro text ht
      cases ht
  | some text =>
    have hpe := parse_of_isDatetime _ (hend text hE)
    have hc : service.CreateSubscription db req newID now =
        repository.InsertSubscription db req.ServiceName req.Price req.UserID
          (time.Date (spec.yearOf req.StartDate) (spec.monthOf req.StartDate) 1 0 0 0 0 time.UTC)
          (some (time.Date (spec.yearOf text) (spec.monthOf text) 1 0 0 0 0 time.UTC))
          newID now := by
      unfold service.CreateSubscription
      rw [hps, hE]
      simp only [hpe]
    rw [hc]
    simp only [repository.InsertSubscription, DB.failure, hf, repository.GetSubscriptions,
      DB.sent, ite_self]
    refine ⟨trivial, trivial, ?_, ?_⟩
    · intro hn
      cases hn
    · intro text2 ht
      cases ht
      obtain ⟨t, hp, hm, hy, hfmt⟩ := parse_format_of_isMonthYear text
        (by rw [← isDatetime_eq_isMonthYear]; exact hend text hE)
      rw [hpe] at hp
      cases hp
      refine ⟨_, _, rfl, rfl, rfl, rfl, rfl, rfl, hfmt, ?_⟩
      simp [hu]

theorem created_subscription_is_retrievable_witness :
    validator.StructCreateSubscription sample.createRequest = [] ∧
      sample.store.fault = none ∧ sample.userA.String = sample.createRequest.UserID ∧
      (service.CreateSubscription sample.store sample.createRequest sample.idTwo
        sample.noon).1 = (sample.idTwo.String, none) :=
  ⟨by decide, rfl, rfl, (created_subscription_is_retrievable sample.store sample.createRequest
    sample.idTwo sample.userA sample.noon (by decide) rfl rfl).1⟩

end Create

/-! ## Deleting -/

section Delete
open sql

theorem filter_length_eq_iff (rows : List sql_models.Subscription) (id : String) :
    rows.length - (rows.filter (fun r => r.ID != id)).length = 0 ↔ ∀ r ∈ rows, r.ID ≠ id := by
  have hle := List.length_filter_le (fun r : sql_models.Subscription => r.ID != id) rows
  constructor
  · intro h
    have hlen : (rows.filter (fun r => r.ID != id)).length = rows.length := by omega
    have := List.filter_length_eq_length.mp hlen
    intro r hr
    simpa using this r hr
  · intro h
    have : rows.filter (fun r => r.ID != id) = rows := by
      rw [List.filter_eq_self]
      intro r hr
      simpa using h r hr
    rw [this]
    omega

/-- C8: with the store answering, `DeleteSubscription` fails with the not-found error
exactly when no row has the id, and then leaves the rows as they were; deleting an id
that exists succeeds and deleting it again at once fails with not-found; the service
function passes the outcome on, adding its context to the error. -/
theorem delete_not_found_iff_absent (db : DB) (id : uuid.UUID) (hf : db.fault = none) :
    ((repository.DeleteSubscription db id).1 = some "subscription does not exist" ↔
      ∀ r ∈ db.rows, r.ID ≠ id.String) ∧
    ((∀ r ∈ db.rows, r.ID ≠ id.String) →
      (repository.DeleteSubscription db id).2.rows = db.rows) ∧
    ((∃ r ∈ db.rows, r.ID = id.String) →
      (repository.DeleteSubscription db id).1 = none ∧
      (∀ r ∈ (repository.DeleteSubscription db id).2.rows, r.ID ≠ id.String) ∧
      (repository.DeleteSubscription (repository.DeleteSubscription db id).2 id).1 =
        some "subscription does not exist") ∧
    (service.DeleteSubscription db id).1 =
      (repository.DeleteSubscription db id).1.map
        (fun err => "failed to delete subscription: " ++ err) ∧
    (service.DeleteSubscription db id).2 = (repository.DeleteSubscription db id).2 := by
  have hiff := filter_length_eq_iff db.rows id.String
  have hkept : ∀ r ∈ db.rows.filter (fun r => r.ID != id.String), r.ID ≠ id.String := by
    intro r hr
    simpa using (List.mem_filter.mp hr).2
  refine ⟨?_, ?_, ?_, ?_, ?_⟩
  · unfold repository.DeleteSubscription
    simp only [DB.failure, hf]
    by_cases h0 : db.rows.length - (db.rows.filter (fun r => r.ID != id.String)).length = 0
    · simp only [h0, if_true, true_iff]
      exact hiff.mp h0
    · simp only [h0, if_false]
      constructor
      · intro h; cases h
      · intro h; exact absurd (hiff.mpr h) h0
  · intro h
    unfold repository.DeleteSubscription
    simp only [DB.failure, hf]
    have : db.rows.filter (fun r => r.ID != id.String) = db.rows := by
      rw [List.filter_eq_self]
      intro r hr
      simpa using h r hr
    split <;> simp [DB.sent, this]
  · rintro ⟨r, hr, hid⟩
    have h0 : ¬ (db.rows.length - (db.rows.filter (fun r => r.ID != id.String)).length = 0) := by
      intro h
      exact (hiff.mp h) r hr hid
    have hres : repository.DeleteSubscription db id =
        (none, { db.sent repository.deleteQuery [Value.text id.String] with
          rows := db.rows.filter (fun r => r.ID != id.String) }) := by
      unfold repository.DeleteSubscription
      simp only [DB.failure, hf, h0, if_false]
    rw [hres]
    refine ⟨rfl, hkept, ?_⟩
    unfold repository.DeleteSubscription
    simp only [DB.sent, DB.failure, hf]
    have h1 := (filter_length_eq_iff (db.rows.filter (fun r => r.ID != id.String)) id.String).mpr
      hkept
    simp only [h1, if_true]
  · cases h : (repository.DeleteSubscription db id).1 <;>
      simp [service.DeleteSubscription, h]
  · cases h : (repository.DeleteSubscription db id).1 <;>
      simp [service.DeleteSubscription, h]

theorem delete_not_found_iff_absent_witness :
    sample.store.fault = none ∧
      (repository.DeleteSubscription sample.store sample.idOne).1 = none ∧
      (repository.DeleteSubscription (repository.DeleteSubscription sample.store sample.idOne).2
        sample.idOne).1 = some "subscription does not exist" :=
  ⟨rfl,
    ((delete_not_found_iff_absent sample.store sample.idOne rfl).2.2.1
      ⟨sample.spotify, by decide, rfl⟩).1,
    ((delete_not_found_iff_absent sample.store sample.idOne rfl).2.2.1
      ⟨sample.spotify, by decide, rfl⟩).2.2⟩

end Delete

/-! ## Error answers -/

section Errors
open sql

theorem insert_fault_text (rows : List sql_models.Subscription)
    (log : List (String × List Value)) (stage : Stage) (e1 e2 : String) (serviceName : String)
    (price : Int) (userID : String) (startDate : time.Time) (endTime : Option time.Time)
    (newID : uuid.UUID) (now : time.Time) :
    (repository.InsertSubscription ⟨rows, some ⟨stage, e1⟩, log⟩ serviceName price userID
        startDate endTime newID now).1.1 =
      (repository.InsertSubscription ⟨rows, some ⟨stage, e2⟩, log⟩ serviceName price userID
        startDate endTime newID now).1.1 ∧
    (repository.InsertSubscription ⟨rows, some ⟨stage, e1⟩, log⟩ serviceName price userID
        startDate endTime newID now).1.2.isSome =
      (repository.InsertSubscription ⟨rows, some ⟨stage, e2⟩, log⟩ serviceName price userID
        startDate endTime newID now).1.2.isSome := by
  cases stage <;> exact ⟨rfl, rfl⟩

theorem service_create_fault_text (rows : List sql_models.Subscription)
    (log : List (String × List Value)) (stage : Stage) (e1 e2 : String)
    (req : json_models.CreateSubscription) (newID : uuid.UUID) (now : time.Time) :
    (service.CreateSubscription ⟨rows, some ⟨stage, e1⟩, log⟩ req newID now).1.1 =
      (service.CreateSubscription ⟨rows, some ⟨stage, e2⟩, log⟩ req newID now).1.1 ∧
    (service.CreateSubscription ⟨rows, some ⟨stage, e1⟩, log⟩ req newID now).1.2.isSome =
      (service.CreateSubscription ⟨rows, some ⟨stage, e2⟩, log⟩ req newID now).1.2.isSome := by
  simp only [service.CreateSubscription]
  cases time.Parse req.StartDate with
  | error err => exact ⟨rfl, rfl⟩
  | ok t =>
    cases req.EndDate with
    | none => exact insert_fault_text rows log stage e1 e2 _ _ _ _ _ _ _
    | some text =>
      simp only []
      cases time.Parse text with
      | error err => exact ⟨rfl, rfl⟩
      | ok t2 => exact insert_fault_text rows log stage e1 e2 _ _ _ _ _ _ _

/-- C9: the delete handler writes the text of the service error into its 500 answer, so
two runs that differ only in the store's error text are answered differently; the
create, get, update and cost handlers answer such runs identically. -/
theorem delete_handler_returns_error_text :
    (handler.deleteSubscription ⟨[], some ⟨.send, "pq: password authentication failed"⟩, []⟩
        sample.idOne.String).1 =
      ⟨500, .text ("failed to delete subscription: database error when deleting " ++
        "subscription: pq: password authentication failed")⟩ ∧
    (handler.deleteSubscription ⟨[], some ⟨.send, "dial tcp 10.0.0.5:5432: connect: refused"⟩, []⟩
        sample.idOne.String).1 =
      ⟨500, .text ("failed to delete subscription: database error when deleting " ++
        "subscription: dial tcp 10.0.0.5:5432: connect: refused")⟩ ∧
    (handler.deleteSubscription ⟨[], some ⟨.send, "pq: password authentication failed"⟩, []⟩
        sample.idOne.String).1 ≠
      (handler.deleteSubscription ⟨[], some ⟨.send, "dial tcp 10.0.0.5:5432: connect: refused"⟩, []⟩
        sample.idOne.String).1 ∧
    (handler.deleteSubscription ⟨[], none, []⟩ sample.idOne.String).1 =
      ⟨500, .text "failed to delete subscription: subscription does not exist"⟩ ∧
    (∀ (rows : List sql_models.Subscription) (log : List (String × List Value))
      (stage : Stage) (e1 e2 : String) (body : Option json_models.CreateSubscription) (newID : uuid.UUID)
      (now : time.Time),
      (handler.createSubscription ⟨rows, some ⟨stage, e1⟩, log⟩ body newID now).1 =
        (handler.createSubscription ⟨rows, some ⟨stage, e2⟩, log⟩ body newID now).1) ∧
    (∀ (rows : List sql_models.Subscription) (log : List (String × List Value))
      (stage : Stage) (e1 e2 : String) (userID : String),
      (handler.getSubscription ⟨rows, some ⟨stage, e1⟩, log⟩ userID).1 =
        (handler.getSubscription ⟨rows, some ⟨stage, e2⟩, log⟩ userID).1) ∧
    (∀ (rows : List sql_models.Subscription) (log : List (String × List Value))
      (stage : Stage) (e1 e2 : String) (body : Option json_models.PutSubscription),
      (handler.updateSubscription ⟨rows, some ⟨stage, e1⟩, log⟩ body).1 =
        (handler.updateSubscription ⟨rows, some ⟨stage, e2⟩, log⟩ body).1) ∧
    (∀ (rows : List sql_models.Subscription) (log : List (String × List Value))
      (stage : Stage) (e1 e2 : String) (L : CaseFolding) (query : Option json_models.CostRequest)
      (now : time.Time),
      (handler.calculateSubscriptionsCost L ⟨rows, some ⟨stage, e1⟩, log⟩ query now).1 =
        (handler.calculateSubscriptionsCost L ⟨rows, some ⟨stage, e2⟩, log⟩ query now).1) := by
  refine ⟨by decide, by decide, by decide, by decide, ?_, ?_, ?_, ?_⟩
  · intro rows log stage e1 e2 body newID now
    cases body with
    | none => rfl
    | some req =>
      simp only [handler.createSubscription]
      split
      · rfl
      · obtain ⟨h1, h2⟩ := service_create_fault_text rows log stage e1 e2 req newID now
        generalize service.CreateSubscription ⟨rows, some ⟨stage, e1⟩, log⟩ req newID now = ra
          at h1 h2 ⊢
        generalize service.CreateSubscription ⟨rows, some ⟨stage, e2⟩, log⟩ req newID now = rb
          at h1 h2 ⊢
        obtain ⟨⟨ida, erra⟩, dba⟩ := ra
        obtain ⟨⟨idb, errb⟩, dbb⟩ := rb
        simp only at h1 h2
        subst h1
        cases erra <;> cases errb <;> simp at h2
        · simp only []
          split <;> rfl
        · rfl
  · intro rows log stage e1 e2 userID
    simp only [handler.getSubscription]
    split
    · rfl
    · cases uuid.Parse userID with
      | none => rfl
      | some id =>
        simp only [service.GetUserSubscriptions, repository.GetSubscriptions]
        by_cases hsel : rows.filter (fun r => r.UserID == id.String) = [] <;>
          cases stage <;> simp [DB.failure, hsel]
  · intro rows log stage e1 e2 body
    cases body with
    | none => cases stage <;> rfl
    | some req =>
      simp only [handler.updateSubscription]
      split
      · rfl
      · simp only [service.UpdateSubscription]
        by_cases h0 : req.StartDate = ""
        · simp only [h0, ne_eq, not_true_eq_false, if_false]
          cases req.EndDate with
          | none => cases stage <;> rfl
          | some text =>
            simp only []
            cases time.Parse text <;> cases stage <;> rfl
        · simp only [h0, ne_eq, not_false_eq_true, if_true]
          cases time.Parse req.StartDate with
          | error err => cases stage <;> rfl
          | ok t =>
            simp only []
            cases req.EndDate with
            | none => cases stage <;> rfl
            | some text =>
              simp only []
              cases time.Parse text <;> cases stage <;> rfl
  · intro rows log stage e1 e2 L query now
    cases query with
    | none => cases stage <;> rfl
    | some req =>
      simp only [handler.calculateSubscriptionsCost]
      split
      · rfl
      · cases req.UserID with
        | none =>
          simp only [service.CalculateSubscriptionsCost]
          cases time.Parse req.StartDate with
          | error err => cases stage <;> rfl
          | ok t =>
            cases req.EndDate with
            | none => cases stage <;> rfl
            | some text =>
              simp only []
              cases time.Parse text <;> cases stage <;> rfl
        | some text =>
          simp only []
          cases uuid.Parse text with
          | none => cases stage <;> rfl
          | some id =>
            simp only [service.CalculateSubscriptionsCost]
            cases time.Parse req.StartDate with
            | error err => cases stage <;> rfl
            | ok t =>
              cases req.EndDate with
              | none => cases stage <;> rfl
              | some text =>
                simp only []
                cases time.Parse text <;> cases stage <;> rfl

end Errors

/-! ## Updating -/

section Update
open sql

theorem parse_empty : ∀ t, time.Parse "" ≠ .ok t := by
  intro t h
  have := isMonthYear_of_parse "" t h
  revert this
  decide

theorem repository_update_rows (db : DB) (id : String) (data : json_models.SubscriptionUpdate)
    (hf : db.fault = none) :
    (repository.UpdateSubscription db id data).1 = none ∧
    (repository.UpdateSubscription db id data).2.rows =
      db.rows.map (fun r =>
        if r.ID = id then
          { r with
            ServiceName := data.ServiceName
            Price := data.Price
            StartDate := data.StartDate.getD r.StartDate
            EndDate := if data.EndDate.isSome then data.EndDate else r.EndDate }
        else r) := by
  unfold repository.UpdateSubscription
  simp only [DB.failure, hf, DB.sent, true_and]
  apply List.map_congr_left
  intro r _
  cases hs : data.StartDate <;> cases he : data.EndDate <;>
    simp [repository.updateRow, param, Value.ofTime, coalesceText, coalesceInt, coalesceTime,
      coalesceOptTime]

end Update

/-! ## Reading the subscriptions of a user -/

section Read
open sql

/-- C12: with the store answering, `GetSubscriptions` returns without error exactly the
rows whose `user_id` is the given id, each as stored (so a record has no end date
exactly when the stored `end_date` is null), and the empty sequence when the user has
no row; it changes no row, the service passes the result on, and the handler answers
200 with that sequence. -/
theorem get_returns_exactly_the_rows_of_the_user (db : DB) (userID : uuid.UUID)
    (hf : db.fault = none) :
    (repository.GetSubscriptions db userID).1 =
      (db.rows.filter (fun r => r.UserID == userID.String), none) ∧
    (∀ r, r ∈ (repository.GetSubscriptions db userID).1.1 ↔
      r ∈ db.rows ∧ r.UserID = userID.String) ∧
    ((∀ r ∈ db.rows, r.UserID ≠ userID.String) →
      (repository.GetSubscriptions db userID).1 = ([], none)) ∧
    (repository.GetSubscriptions db userID).2.rows = db.rows ∧
    service.GetUserSubscriptions db userID = repository.GetSubscriptions db userID ∧
    (∀ text : String, text ≠ "" → uuid.Parse text = some userID →
      (handler.getSubscription db text).1 =
        ⟨200, .subscriptions (db.rows.filter (fun r => r.UserID == userID.String))⟩) := by
  have h1 : repository.GetSubscriptions db userID =
      ((db.rows.filter (fun r => r.UserID == userID.String), none),
        db.sent repository.selectQuery [Value.text userID.String]) :=
    repository_get_of_no_fault db userID hf
  have h2 : service.GetUserSubscriptions db userID = repository.GetSubscriptions db userID := by
    unfold service.GetUserSubscriptions
    rw [h1]
  refine ⟨?_, ?_, ?_, ?_, h2, ?_⟩
  · rw [h1]
  · intro r
    rw [h1]
    simp [List.mem_filter]
  · intro hno
    rw [h1]
    have : db.rows.filter (fun r => r.UserID == userID.String) = [] := by
      rw [List.filter_eq_nil_iff]
      intro r hr
      simpa using hno r hr
    rw [this]
  · rw [h1]
    rfl
  · intro text hne hp
    unfold handler.getSubscription
    rw [if_neg hne, hp]
    simp only [h2, h1]

theorem get_returns_exactly_the_rows_of_the_user_witness :
    sample.store.fault = none ∧
      (repository.GetSubscriptions sample.store sample.userA).1 = ([sample.spotify], none) ∧
      (repository.GetSubscriptions sample.store sample.idOne).1 = ([], none) :=
  ⟨rfl,
    (get_returns_exactly_the_rows_of_the_user sample.store sample.userA rfl).1.trans
      (by decide),
    (get_returns_exactly_the_rows_of_the_user sample.store sample.idOne rfl).2.2.1
      (by decide)⟩

end Read

/-! ## Accepted updates -/

section AcceptedUpdate
open sql

theorem put_valid_inv (req : json_models.PutSubscription)
    (h : validator.StructPutSubscription req = []) :
    req.ServiceName ≠ "" ∧ 0 < req.Price ∧ validator.isUUID4 req.SubscriptionID = true ∧
      validator.isDatetime req.StartDate = true ∧
      ∀ text, req.EndDate = some text → validator.isDatetime text = true := by
  unfold validator.StructPutSubscription at h
  simp only [List.append_eq_nil] at h
  obtain ⟨⟨⟨⟨h1, h2⟩, h3⟩, h4⟩, h5⟩ := h
  refine ⟨?_, ?_, ?_, ?_, ?_⟩
  · intro hn; simp [hn] at h1
  · by_cases hq : req.Price > 0
    · exact hq
    · simp [hq] at h2
  · cases hd : validator.isUUID4 req.SubscriptionID with
    | true => rfl
    | false => simp [hd] at h3
  · cases hd : validator.isDatetime req.StartDate with
    | true => rfl
    | false => simp [hd] at h4
  · intro text ht
    rw [ht] at h5
    exact omitemptyDatetime_nil _ _ _ h5

theorem parse_monthStart (s : String) (h : validator.isDatetime s = true) :
    time.Parse s = .ok (spec.monthStart s) :=
  parse_of_isDatetime s h

theorem service_update_valid (db : DB) (req : json_models.PutSubscription)
    (hv : validator.StructPutSubscription req = []) :
    service.UpdateSubscription db req =
      ((repository.UpdateSubscription db req.SubscriptionID
          ⟨req.ServiceName, req.Price, some (spec.monthStart req.StartDate),
            req.EndDate.map spec.monthStart⟩).1.map
        (fun err => "failed to update subscription: " ++ err),
       (repository.UpdateSubscription db req.SubscriptionID
          ⟨req.ServiceName, req.Price, some (spec.monthStart req.StartDate),
            req.EndDate.map spec.monthStart⟩).2) := by
  obtain ⟨_, _, _, hstart, hend⟩ := put_valid_inv req hv
  have hps := parse_monthStart _ hstart
  have hne : req.StartDate ≠ "" := by
    intro h
    rw [h] at hps
    exact parse_empty _ hps
  unfold service.UpdateSubscription
  cases hE : req.EndDate with
  | none =>
    simp only [hne, ne_eq, not_false_eq_true, if_true, hps, Option.map]
    cases (repository.UpdateSubscription db req.SubscriptionID
      ⟨req.ServiceName, req.Price, some (spec.monthStart req.StartDate), none⟩).1 <;> rfl
  | some text =>
    have hpe := parse_monthStart _ (hend text hE)
    simp only [hne, ne_eq, not_false_eq_true, if_true, hps, hpe, Option.map]
    cases (repository.UpdateSubscription db req.SubscriptionID
      ⟨req.ServiceName, req.Price, some (spec.monthStart req.StartDate),
        some (spec.monthStart text)⟩).1 <;> rfl

theorem map_updateRow_of_absent (rows : List sql_models.Subscription) (args : List Value)
    (key : String) (hid : param args 5 = .text key) (hno : ∀ r ∈ rows, r.ID ≠ key) :
    rows.map (repository.updateRow args) = rows := by
  induction rows with
  | nil => rfl
  | cons r rest ih =>
    have hr : repository.updateRow args r = r := by
      unfold repository.updateRow
      rw [hid]
      simp [hno r (List.mem_cons_self r rest)]
    rw [List.map_cons, hr, ih (fun x hx => hno x (List.mem_cons_of_mem r hx))]

/-- C13: with the store answering, an update whose id matches no row returns no error
and leaves every row as it was, in the data-access layer for any payload and in the
service and the handler for any request that passes validation, which the handler
answers with 202 and the status `updated`. -/
theorem update_of_absent_id_succeeds_silently (db : DB) (hf : db.fault = none) :
    (∀ (id : String) (data : json_models.SubscriptionUpdate),
      (∀ r ∈ db.rows, r.ID ≠ id) →
      (repository.UpdateSubscription db id data).1 = none ∧
        (repository.UpdateSubscription db id data).2.rows = db.rows) ∧
    (∀ req : json_models.PutSubscription, validator.StructPutSubscription req = [] →
      (∀ r ∈ db.rows, r.ID ≠ req.SubscriptionID) →
      (service.UpdateSubscription db req).1 = none ∧
        (service.UpdateSubscription db req).2.rows = db.rows ∧
        (handler.updateSubscription db (some req)).1 = ⟨202, .status "updated"⟩ ∧
        (handler.updateSubscription db (some req)).2.rows = db.rows) := by
  have hrepo : ∀ (id : String) (data : json_models.SubscriptionUpdate),
      (∀ r ∈ db.rows, r.ID ≠ id) →
      (repository.UpdateSubscription db id data).1 = none ∧
        (repository.UpdateSubscription db id data).2.rows = db.rows := by
    intro id data hno
    unfold repository.UpdateSubscription
    simp only [DB.failure, hf, DB.sent, true_and]
    exact map_updateRow_of_absent _ _ id rfl hno
  refine ⟨hrepo, ?_⟩
  intro req hv hno
  have hsvc := service_update_valid db req hv
  obtain ⟨h1, h2⟩ := hrepo req.SubscriptionID
    ⟨req.ServiceName, req.Price, some (spec.monthStart req.StartDate),
      req.EndDate.map spec.monthStart⟩ hno
  have hs1 : (service.UpdateSubscription db req).1 = none := by rw [hsvc, h1]; rfl
  have hs2 : (service.UpdateSubscription db req).2.rows = db.rows := by rw [hsvc]; exact h2
  refine ⟨hs1, hs2, ?_, ?_⟩
  · unfold handler.updateSubscription
    simp [hv, hs1]
  · unfold handler.updateSubscription
    simp [hv, hs1, hs2]

theorem update_of_absent_id_succeeds_silently_witness :
    sample.store.fault = none ∧
      validator.StructPutSubscription { sample.fullUpdate with
        SubscriptionID := sample.idTwo.String } = [] ∧
      (handler.updateSubscription sample.store (some { sample.fullUpdate with
        SubscriptionID := sample.idTwo.String })).1 = ⟨202, .status "updated"⟩ ∧
      (handler.updateSubscription sample.store (some { sample.fullUpdate with
        SubscriptionID := sample.idTwo.String })).2.rows = [sample.spotify] :=
  ⟨rfl, by decide,
    ((update_of_absent_id_succeeds_silently sample.store rfl).2
      { sample.fullUpdate with SubscriptionID := sample.idTwo.String } (by decide)
      (by decide)).2.2.1,
    ((update_of_absent_id_succeeds_silently sample.store rfl).2
      { sample.fullUpdate with SubscriptionID := sample.idTwo.String } (by decide)
      (by decide)).2.2.2⟩

end AcceptedUpdate

section UpdatePayload
open sql

/-- C17: for an update request that passes the handler's validation, the statement the
service sends binds the request's non-empty name, its price greater than 0, the first
day of the parsed start month (never NULL), the parsed end month or NULL when the
request has none, and the id; hence, with the store answering, the row with that id gets
the request's name, price and start month, its `end_date` is replaced when the request
has one and kept only when it has none, and the handler answers 202. -/
theorem accepted_update_overwrites_name_price_start (db : DB)
    (req : json_models.PutSubscription) (hv : validator.StructPutSubscription req = []) :
    req.ServiceName ≠ "" ∧ 0 < req.Price ∧
    time.Parse req.StartDate = .ok (spec.monthStart req.StartDate) ∧
    (service.UpdateSubscription db req).2.log =
      db.log ++ [(repository.updateQuery,
        [Value.text req.ServiceName, Value.int req.Price,
          Value.time (spec.monthStart req.StartDate),
          Value.ofTime (req.EndDate.map spec.monthStart), Value.text req.SubscriptionID])] ∧
    (db.fault = none →
      (handler.updateSubscription db (some req)).1 = ⟨202, .status "updated"⟩ ∧
      (handler.updateSubscription db (some req)).2.rows =
        db.rows.map (fun r =>
          if r.ID = req.SubscriptionID then
            { r with
              ServiceName := req.ServiceName
              Price := req.Price
              StartDate := spec.monthStart req.StartDate
              EndDate := if req.EndDate.isSome then req.EndDate.map spec.monthStart
                else r.EndDate }
          else r)) := by
  obtain ⟨hname, hprice, _, hstart, _⟩ := put_valid_inv req hv
  have hsvc := service_update_valid db req hv
  refine ⟨hname, hprice, parse_monthStart _ hstart, ?_, ?_⟩
  · rw [hsvc]
    unfold repository.UpdateSubscription
    cases db.failure .send <;> rfl
  · intro hf
    obtain ⟨h1, h2⟩ := repository_update_rows db req.SubscriptionID
      ⟨req.ServiceName, req.Price, some (spec.monthStart req.StartDate),
        req.EndDate.map spec.monthStart⟩ hf
    have hs1 : (service.UpdateSubscription db req).1 = none := by rw [hsvc, h1]; rfl
    have hs2 : (service.UpdateSubscription db req).2.rows =
        (repository.UpdateSubscription db req.SubscriptionID
          ⟨req.ServiceName, req.Price, some (spec.monthStart req.StartDate),
            req.EndDate.map spec.monthStart⟩).2.rows := by rw [hsvc]
    constructor
    · unfold handler.updateSubscription
      simp [hv, hs1]
    · have hh : (handler.updateSubscription db (some req)).2 =
          (service.UpdateSubscription db req).2 := by
        unfold handler.updateSubscription
        simp [hv, hs1]
      rw [hh, hs2, h2]
      apply List.map_congr_left
      intro r _
      cases req.EndDate <;> simp

theorem accepted_update_overwrites_name_price_start_witness :
    validator.StructPutSubscription sample.fullUpdateWithEnd = [] ∧
      sample.store.fault = none ∧
      (handler.updateSubscription sample.store (some sample.fullUpdateWithEnd)).2.rows =
        [{ sample.spotify with
            ServiceName := "Spotify Family"
            Price := 800
            StartDate := time.Date 2024 3 1 0 0 0 0 time.UTC
            EndDate := some (time.Date 2024 12 1 0 0 0 0 time.UTC) }] :=
  ⟨by decide, rfl,
    ((accepted_update_overwrites_name_price_start sample.store sample.fullUpdateWithEnd
      (by decide)).2.2.2.2 rfl).2.trans (by decide)⟩

end UpdatePayload

/-! ## Requests that leave a field unset -/

section PartialUpdate
open sql

end PartialUpdate

/-! ## The new identifier -/

section NewId
open sql

theorem uuid_string_ne_empty (u : uuid.UUID) : u.String ≠ "" := by
  intro h
  have := congrArg String.data h
  simp [uuid.UUID.String] at this

/-- C15: the text form of the freshly drawn identifier is never empty; a call of the
service's `CreateSubscription` that returns without error returns that identifier, so
never the empty id; the same holds for `InsertSubscription`; and the create handler
never answers 409, the status of its `Subscription already exists` branch. -/
theorem create_returns_new_id_or_error (db : DB) (newID : uuid.UUID) (now : time.Time) :
    newID.String ≠ "" ∧
    (∀ sub : json_models.CreateSubscription,
      (service.CreateSubscription db sub newID now).1.2 = none →
      (service.CreateSubscription db sub newID now).1.1 = newID.String ∧
        (service.CreateSubscription db sub newID now).1.1 ≠ "") ∧
    (∀ (serviceName : String) (price : Int) (userID : String) (startDate : time.Time)
      (endTime : Option time.Time),
      (repository.InsertSubscription db serviceName price userID startDate endTime newID
        now).1.2 = none →
      (repository.InsertSubscription db serviceName price userID startDate endTime newID
        now).1.1 = newID.String) ∧
    (∀ body : Option json_models.CreateSubscription,
      (handler.createSubscription db body newID now).1.status ≠ 409) := by
  have hne := uuid_string_ne_empty newID
  have hrepo : ∀ (serviceName : String) (price : Int) (userID : String)
      (startDate : time.Time) (endTime : Option time.Time),
      (repository.InsertSubscription db serviceName price userID startDate endTime newID
        now).1.2 = none →
      (repository.InsertSubscription db serviceName price userID startDate endTime newID
        now).1.1 = newID.String := by
    intro serviceName price userID startDate endTime h
    unfold repository.InsertSubscription at h ⊢
    cases hf : db.failure .send with
    | none => simp only [hf]
    | some err => simp [hf] at h
  have hsvc : ∀ sub : json_models.CreateSubscription,
      (service.CreateSubscription db sub newID now).1.2 = none →
      (service.CreateSubscription db sub newID now).1.1 = newID.String := by
    intro sub h
    unfold service.CreateSubscription at h ⊢
    cases hp : time.Parse sub.StartDate with
    | error err => simp [hp] at h
    | ok t =>
      simp only [hp] at h ⊢
      cases hE : sub.EndDate with
      | none =>
        simp only [hE] at h ⊢
        exact hrepo _ _ _ _ _ h
      | some text =>
        simp only [hE] at h ⊢
        cases hq : time.Parse text with
        | error err => simp [hq] at h
        | ok t2 =>
          simp only [hq] at h ⊢
          exact hrepo _ _ _ _ _ h
  refine ⟨hne, ?_, hrepo, ?_⟩
  · intro sub h
    have := hsvc sub h
    exact ⟨this, by rw [this]; exact hne⟩
  · intro body
    cases body with
    | none => simp [handler.createSubscription]
    | some sub =>
      unfold handler.createSubscription
      simp only []
      split
      · simp
      · cases he : (service.CreateSubscription db sub newID now).1.2 with
        | some err => simp
        | none =>
          simp only []
          have h1 := hsvc sub he
          have h2 : (service.CreateSubscription db sub newID now).1.1 ≠ "" := by
            rw [h1]; exact hne
          rw [if_neg h2]
          simp

theorem create_returns_new_id_or_error_witness :
    (service.CreateSubscription sample.store sample.createRequest sample.idTwo
        sample.noon).1.2 = none ∧
      (service.CreateSubscription sample.store sample.createRequest sample.idTwo
        sample.noon).1.1 = "7c9e6679-7425-40de-944b-e07fc1f90ae7" :=
  ⟨by decide,
    ((create_returns_new_id_or_error sample.store sample.idTwo sample.noon).2.1
      sample.createRequest (by decide)).1.trans (by decide)⟩

end NewId

/-! ## Placeholders of the cost statement -/

section Placeholders
open sql

/-- C16: in each of the four combinations of filters the cost statement's text uses
exactly the placeholders `$1..$n`, `n` being the number of bound arguments; `$1` is bound
to the start date and `$2` to the check date (the end date, or the current time without
one); the `user_id` conjunct, when present, reads `$3`, bound to the user id; the
`service_name` conjunct reads `$3` when it is the only filter and `$4` when both are
present, bound to the service name. -/
theorem cost_placeholders_match_arguments (d : time.Time) (e : Option time.Time)
    (now : time.Time) :
    (spec.placeholders (repository.costStatement none none d e now).text.data = [1, 2] ∧
      (repository.costStatement none none d e now).text = repository.costQuery ∧
      (repository.costStatement none none d e now).conds =
        [Pred.startDateGe 1, Pred.endDateNullOrLe 2] ∧
      (repository.costStatement none none d e now).args =
        [Value.time d, Value.time (e.getD now)]) ∧
    (∀ v : uuid.UUID,
      spec.placeholders (repository.costStatement (some v) none d e now).text.data =
        [1, 2, 3] ∧
      (repository.costStatement (some v) none d e now).text =
        repository.costQuery ++ " AND user_id = $3" ∧
      (repository.costStatement (some v) none d e now).conds =
        [Pred.startDateGe 1, Pred.endDateNullOrLe 2, Pred.userIdEq 3] ∧
      (repository.costStatement (some v) none d e now).args =
        [Value.time d, Value.time (e.getD now), Value.text v.String]) ∧
    (∀ name : String,
      spec.placeholders (repository.costStatement none (some name) d e now).text.data =
        [1, 2, 3] ∧
      (repository.costStatement none (some name) d e now).text =
        repository.costQuery ++ " AND service_name ILIKE $3" ∧
      (repository.costStatement none (some name) d e now).conds =
        [Pred.startDateGe 1, Pred.endDateNullOrLe 2, Pred.serviceNameILike 3] ∧
      (repository.costStatement none (some name) d e now).args =
        [Value.time d, Value.time (e.getD now), Value.text name]) ∧
    (∀ (v : uuid.UUID) (name : String),
      spec.placeholders (repository.costStatement (some v) (some name) d e now).text.data =
        [1, 2, 3, 4] ∧
      (repository.costStatement (some v) (some name) d e now).text =
        repository.costQuery ++ " AND user_id = $3" ++ " AND service_name ILIKE $4" ∧
      (repository.costStatement (some v) (some name) d e now).conds =
        [Pred.startDateGe 1, Pred.endDateNullOrLe 2, Pred.userIdEq 3,
          Pred.serviceNameILike 4] ∧
      (repository.costStatement (some v) (some name) d e now).args =
        [Value.time d, Value.time (e.getD now), Value.text v.String, Value.text name]) ∧
    (∀ (u : Option uuid.UUID) (s : Option String),
      spec.placeholders (repository.costStatement u s d e now).text.data =
        List.range' 1 (repository.costStatement u s d e now).args.length) := by
  have t0 : (repository.costStatement none none d e now).text = repository.costQuery := rfl
  have t1 : ∀ v : uuid.UUID, (repository.costStatement (some v) none d e now).text =
      repository.costQuery ++ " AND user_id = $3" := fun _ => rfl
  have t2 : ∀ name : String, (repository.costStatement none (some name) d e now).text =
      repository.costQuery ++ " AND service_name ILIKE $3" := by
    intro name
    simp [repository.costStatement]
    rfl
  have t3 : ∀ (v : uuid.UUID) (name : String),
      (repository.costStatement (some v) (some name) d e now).text =
        repository.costQuery ++ " AND user_id = $3" ++ " AND service_name ILIKE $4" := by
    intro v name
    simp [repository.costStatement]
    rfl
  have p0 : spec.placeholders repository.costQuery.data = [1, 2] := by decide
  have p1 : spec.placeholders (repository.costQuery ++ " AND user_id = $3").data =
      [1, 2, 3] := by decide
  have p2 : spec.placeholders (repository.costQuery ++ " AND service_name ILIKE $3").data =
      [1, 2, 3] := by decide
  have p3 : spec.placeholders
      (repository.costQuery ++ " AND user_id = $3" ++ " AND service_name ILIKE $4").data =
      [1, 2, 3, 4] := by decide
  have a0 : (repository.costStatement none none d e now).args =
      [Value.time d, Value.time (e.getD now)] := by cases e <;> rfl
  have a1 : ∀ v : uuid.UUID, (repository.costStatement (some v) none d e now).args =
      [Value.time d, Value.time (e.getD now), Value.text v.String] := by
    intro v; cases e <;> rfl
  have a2 : ∀ name : String, (repository.costStatement none (some name) d e now).args =
      [Value.time d, Value.time (e.getD now), Value.text name] := by
    intro name; cases e <;> rfl
  have a3 : ∀ (v : uuid.UUID) (name : String),
      (repository.costStatement (some v) (some name) d e now).args =
        [Value.time d, Value.time (e.getD now), Value.text v.String, Value.text name] := by
    intro v name; cases e <;> rfl
  refine ⟨⟨?_, t0, rfl, a0⟩, fun v => ⟨?_, t1 v, rfl, a1 v⟩, fun name => ⟨?_, t2 name, rfl, a2 name⟩,
    fun v name => ⟨?_, t3 v name, rfl, a3 v name⟩, ?_⟩
  · rw [t0]; exact p0
  · rw [t1]; exact p1
  · rw [t2]; exact p2
  · rw [t3]; exact p3
  · intro u s
    cases u with
    | none =>
      cases s with
      | none => rw [t0, a0]; exact p0
      | some name => rw [t2, a2]; exact p2
    | some v =>
      cases s with
      | none => rw [t1, a1]; exact p1
      | some name => rw [t3, a3]; exact p3

end Placeholders

/-! ## UUID texts -/

section UuidText
open validator

theorem matchClasses_mono (fs gs : List (Char → Bool))
    (h : List.Forall₂ (fun f g => ∀ c, f c = true → g c = true) fs gs) :
    ∀ cs, matchClasses fs cs = true → matchClasses gs cs = true := by
  induction h with
  | nil => intro cs hcs; exact hcs
  | cons hfg _ ih =>
    intro cs hcs
    cases cs with
    | nil => simp [matchClasses] at hcs
    | cons c rest =>
      simp only [matchClasses, Bool.and_eq_true] at hcs ⊢
      exact ⟨hfg c hcs.1, ih rest hcs.2⟩

theorem lowerHex_isHexChar (c : Char) (h : lowerHex c = true) : spec.isHexChar c = true := by
  unfold lowerHex at h
  unfold spec.isHexChar
  rw [h]
  rfl

theorem isUUIDText_of_isUUID4 (s : String) (h : isUUID4 s = true) :
    spec.isUUIDText s = true := by
  unfold isUUID4 at h
  unfold spec.isUUIDText
  refine matchClasses_mono _ _ ?_ s.data h
  simp only [List.replicate, List.cons_append, List.nil_append, List.append_nil]
  repeat' first
    | exact List.Forall₂.nil
    | apply List.Forall₂.cons
  all_goals first
    | exact lowerHex_isHexChar
    | (intro c hc; exact hc)
    | (intro c hc; simp at hc; subst hc; decide)
    | (intro c hc; simp at hc; rcases hc with ((rfl | rfl) | rfl) | rfl <;> decide)

end UuidText

section UuidRoundTrip
open validator

theorem matchClasses_forall (P : Char → Prop) (fs : List (Char → Bool))
    (hP : ∀ f ∈ fs, ∀ c, f c = true → P c) :
    ∀ cs, matchClasses fs cs = true → cs.length = fs.length ∧ ∀ c ∈ cs, P c := by
  induction fs with
  | nil =>
    intro cs h
    cases cs with
    | nil => exact ⟨rfl, fun c hc => by simp at hc⟩
    | cons c rest => simp [matchClasses] at h
  | cons f fs ih =>
    intro cs h
    cases cs with
    | nil => simp [matchClasses] at h
    | cons c rest =>
      simp only [matchClasses, Bool.and_eq_true] at h
      obtain ⟨hl, hall⟩ := ih (fun g hg => hP g (List.mem_cons_of_mem f hg)) rest h.2
      refine ⟨by simp [hl], ?_⟩
      intro x hx
      rcases List.mem_cons.mp hx with rfl | hx
      · exact hP f (List.mem_cons_self f fs) x h.1
      · exact hall x hx

theorem lowerHex_bounds (c : Char) (h : lowerHex c = true) :
    (48 ≤ c.toNat ∧ c.toNat ≤ 57) ∨ (97 ≤ c.toNat ∧ c.toNat ≤ 102) := by
  simpa [lowerHex] using h

theorem hexDigit_toNat_digit (c : Char) (h1 : 48 ≤ c.toNat) (h2 : c.toNat ≤ 57) :
    uuid.hexDigit (c.toNat - 48) = c := by
  unfold uuid.hexDigit
  have hlt : c.toNat - 48 < 10 := by omega
  rw [if_pos hlt]
  have : 48 + (c.toNat - 48) = c.toNat := by omega
  rw [this]
  exact Char.ofNat_toNat c

theorem hexDigit_toNat_letter (c : Char) (h1 : 97 ≤ c.toNat) (h2 : c.toNat ≤ 102) :
    uuid.hexDigit (c.toNat - 87) = c := by
  unfold uuid.hexDigit
  have hlt : ¬ (c.toNat - 87 < 10) := by omega
  rw [if_neg hlt]
  have : 87 + (c.toNat - 87) = c.toNat := by omega
  rw [this]
  exact Char.ofNat_toNat c

theorem xvalue_lowerHex (c : Char) (h : lowerHex c = true) :
    ∃ n, uuid.xvalue c = some n ∧ n < 16 ∧ uuid.hexDigit n = c := by
  rcases lowerHex_bounds c h with ⟨h1, h2⟩ | ⟨h1, h2⟩
  · refine ⟨c.toNat - 48, ?_, by omega, hexDigit_toNat_digit c h1 h2⟩
    unfold uuid.xvalue
    simp only [h1, h2, and_self, if_true]
  · refine ⟨c.toNat - 87, ?_, by omega, hexDigit_toNat_letter c h1 h2⟩
    unfold uuid.xvalue
    have hn : ¬ (48 ≤ c.toNat ∧ c.toNat ≤ 57) := by omega
    simp only [hn, if_false, h1, h2, and_self, if_true]

theorem xtob_lowerHex (c1 c2 : Char) (h1 : lowerHex c1 = true) (h2 : lowerHex c2 = true) :
    ∃ b, uuid.xtob c1 c2 = some b ∧ uuid.hexDigit (b.val / 16) = c1 ∧
      uuid.hexDigit (b.val % 16) = c2 := by
  obtain ⟨n1, e1, b1, d1⟩ := xvalue_lowerHex c1 h1
  obtain ⟨n2, e2, b2, d2⟩ := xvalue_lowerHex c2 h2
  refine ⟨Fin.ofNat (n1 * 16 + n2), ?_, ?_, ?_⟩
  · unfold uuid.xtob
    rw [e1, e2]
  · have hv : (Fin.ofNat (n1 * 16 + n2) : Fin 256).val = n1 * 16 + n2 := by
      simp only [Fin.ofNat]
      omega
    rw [hv]
    have : (n1 * 16 + n2) / 16 = n1 := by omega
    rw [this]
    exact d1
  · have hv : (Fin.ofNat (n1 * 16 + n2) : Fin 256).val = n1 * 16 + n2 := by
      simp only [Fin.ofNat]
      omega
    rw [hv]
    have : (n1 * 16 + n2) % 16 = n2 := by omega
    rw [this]
    exact d2

theorem decodePairs_lowerHex (n : Nat) : ∀ cs : List Char, cs.length = 2 * n →
    (∀ c ∈ cs, lowerHex c = true) →
    ∃ bs, uuid.decodePairs cs = some bs ∧ bs.length = n ∧ uuid.hexEncode bs = cs := by
  induction n with
  | zero =>
    intro cs hl _
    have : cs = [] := List.length_eq_zero.mp (by omega)
    subst this
    exact ⟨[], rfl, rfl, rfl⟩
  | succ n ih =>
    intro cs hl hall
    rcases cs with _ | ⟨c1, _ | ⟨c2, rest⟩⟩
    · simp at hl
    · simp at hl
      omega
    · have hrl : rest.length = 2 * n := by
        simp only [List.length_cons] at hl
        omega
      obtain ⟨bs, hd, hlen, henc⟩ := ih rest hrl
        (fun c hc => hall c (List.mem_cons_of_mem _ (List.mem_cons_of_mem _ hc)))
      obtain ⟨b, hb, hhi, hlo⟩ := xtob_lowerHex c1 c2 (hall c1 (by simp)) (hall c2 (by simp))
      refine ⟨b :: bs, ?_, by simp [hlen], ?_⟩
      · simp only [uuid.decodePairs, hb, hd]
      · simp only [uuid.hexEncode, List.flatMap_cons] at henc ⊢
        rw [henc, hhi, hlo]
        rfl

theorem hexEncode_append (xs ys : List (Fin 256)) :
    uuid.hexEncode (xs ++ ys) = uuid.hexEncode xs ++ uuid.hexEncode ys := by
  simp [uuid.hexEncode]

theorem hexEncode_length (xs : List (Fin 256)) : (uuid.hexEncode xs).length = 2 * xs.length := by
  induction xs with
  | nil => rfl
  | cons x xs ih =>
    simp only [uuid.hexEncode, List.flatMap_cons, List.length_append, List.length_cons,
      List.length_nil] at ih ⊢
    omega

theorem hexEncode_take (xs : List (Fin 256)) (n : Nat) :
    uuid.hexEncode (xs.take n) = (uuid.hexEncode xs).take (2 * n) := by
  induction xs generalizing n with
  | nil => simp [uuid.hexEncode]
  | cons x xs ih =>
    cases n with
    | zero => simp [uuid.hexEncode]
    | succ n =>
      have h2 : 2 * (n + 1) = (2 * n) + 1 + 1 := by omega
      simp only [List.take_succ_cons, uuid.hexEncode, List.flatMap_cons, h2,
        List.cons_append, List.nil_append] at ih ⊢
      rw [ih n]

theorem hexEncode_drop (xs : List (Fin 256)) (n : Nat) :
    uuid.hexEncode (xs.drop n) = (uuid.hexEncode xs).drop (2 * n) := by
  induction xs generalizing n with
  | nil => simp [uuid.hexEncode]
  | cons x xs ih =>
    cases n with
    | zero => simp [uuid.hexEncode]
    | succ n =>
      have h2 : 2 * (n + 1) = (2 * n) + 1 + 1 := by omega
      simp only [List.drop_succ_cons, uuid.hexEncode, List.flatMap_cons, h2,
        List.cons_append, List.nil_append] at ih ⊢
      rw [ih n]

theorem uuid4_class_ascii : ∀ f ∈ (List.replicate 8 lowerHex ++ [fun c => c == '-'] ++
      List.replicate 4 lowerHex ++ [fun c => c == '-'] ++
      [fun c => c == '4'] ++ List.replicate 3 lowerHex ++ [fun c => c == '-'] ++
      [fun c => c == '8' || c == '9' || c == 'a' || c == 'b'] ++ List.replicate 3 lowerHex ++
      [fun c => c == '-'] ++ List.replicate 12 lowerHex),
    ∀ c : Char, f c = true → c.toNat < 128 := by
  intro f hf c hc
  simp only [List.mem_append, List.mem_replicate, List.mem_singleton] at hf
  have hlow : lowerHex c = true → c.toNat < 128 := by
    intro h
    rcases lowerHex_bounds c h with ⟨_, h2⟩ | ⟨_, h2⟩ <;> omega
  rcases hf with ((((((((((⟨_, rfl⟩ | rfl) | ⟨_, rfl⟩) | rfl) | rfl) | ⟨_, rfl⟩) | rfl) | rfl) |
    ⟨_, rfl⟩) | rfl) | ⟨_, rfl⟩)
  all_goals first
    | exact hlow hc
    | (simp at hc; subst hc; decide)
    | (simp at hc; rcases hc with ((rfl | rfl) | rfl) | rfl <;> decide)

theorem uuid4_parse_string (s : String) (h : isUUID4 s = true) :
    ∃ v, uuid.Parse s = some v ∧ v.String = s := by
  obtain ⟨cs⟩ := s
  unfold isUUID4 at h
  obtain ⟨hlen, hascii⟩ := matchClasses_forall (fun c => c.toNat < 128) _ uuid4_class_ascii cs h
  have hany : cs.any (fun c => decide (128 ≤ c.toNat)) = false := by
    rw [List.any_eq_false]
    intro c hc
    have := hascii c hc
    simp only [decide_eq_true_eq]
    omega
  have hlen36 : cs.length = 36 := by
    rw [hlen]
    rfl
  simp only [List.replicate, List.cons_append, List.nil_append, List.append_nil] at h
  rcases cs with _ | ⟨c0, _ | ⟨c1, _ | ⟨c2, _ | ⟨c3, _ | ⟨c4, _ | ⟨c5, _ | ⟨c6, _ | ⟨c7, _ | ⟨c8, _ | ⟨c9, _ | ⟨c10, _ | ⟨c11, _ | ⟨c12, _ | ⟨c13, _ | ⟨c14, _ | ⟨c15, _ | ⟨c16, _ | ⟨c17, _ | ⟨c18, _ | ⟨c19, _ | ⟨c20, _ | ⟨c21, _ | ⟨c22, _ | ⟨c23, _ | ⟨c24, _ | ⟨c25, _ | ⟨c26, _ | ⟨c27, _ | ⟨c28, _ | ⟨c29, _ | ⟨c30, _ | ⟨c31, _ | ⟨c32, _ | ⟨c33, _ | ⟨c34, _ | ⟨c35, _ | ⟨x, r⟩⟩⟩⟩⟩⟩⟩⟩⟩⟩⟩⟩⟩⟩⟩⟩⟩⟩⟩⟩⟩⟩⟩⟩⟩⟩⟩⟩⟩⟩⟩⟩⟩⟩⟩⟩⟩ <;>
    simp only [matchClasses, Bool.and_eq_true, Bool.false_eq_true, and_false, false_and,
      and_true, beq_iff_eq] at h
  obtain ⟨h0, h1, h2, h3, h4, h5, h6, h7, h8, h9, h10, h11, h12, h13, h14, h15, h16, h17, h18, h19, h20, h21, h22, h23, h24, h25, h26, h27, h28, h29, h30, h31, h32, h33, h34, h35⟩ := h
  subst h8 h13 h18 h23
  have l14 : lowerHex c14 = true := by subst h14; decide
  have l19 : lowerHex c19 = true := by
    simp only [Bool.or_eq_true, beq_iff_eq] at h19
    rcases h19 with ((rfl | rfl) | rfl) | rfl <;> decide
  have hall : ∀ c ∈ [c0, c1, c2, c3, c4, c5, c6, c7, c9, c10, c11, c12, c14, c15, c16, c17, c19, c20, c21, c22, c24, c25, c26, c27, c28, c29, c30, c31, c32, c33, c34, c35], lowerHex c = true := by
    intro c hc
    simp only [List.mem_cons, List.mem_singleton, List.not_mem_nil, or_false] at hc
    rcases hc with rfl | rfl | rfl | rfl | rfl | rfl | rfl | rfl | rfl | rfl | rfl | rfl | rfl | rfl | rfl | rfl | rfl | rfl | rfl | rfl | rfl | rfl | rfl | rfl | rfl | rfl | rfl | rfl | rfl | rfl | rfl | rfl
    · exact h0
    · exact h1
    · exact h2
    · exact h3
    · exact h4
    · exact h5
    · exact h6
    · exact h7
    · exact h9
    · exact h10
    · exact h11
    · exact h12
    · exact l14
    · exact h15
    · exact h16
    · exact h17
    · exact l19
    · exact h20
    · exact h21
    · exact h22
    · exact h24
    · exact h25
    · exact h26
    · exact h27
    · exact h28
    · exact h29
    · exact h30
    · exact h31
    · exact h32
    · exact h33
    · exact h34
    · exact h35
  obtain ⟨bs, hdec, hblen, henc⟩ := decodePairs_lowerHex 16 [c0, c1, c2, c3, c4, c5, c6, c7, c9, c10, c11, c12, c14, c15, c16, c17, c19, c20, c21, c22, c24, c25, c26, c27, c28, c29, c30, c31, c32, c33, c34, c35] rfl hall
  refine ⟨⟨bs, hblen⟩, ?_, ?_⟩
  · unfold uuid.Parse
    simp only [hany, hlen36, Bool.false_eq_true, if_false, if_true]
    have hc : uuid.parseCanonical [c0, c1, c2, c3, c4, c5, c6, c7, '-', c9, c10, c11, c12, '-', c14, c15, c16, c17, '-', c19, c20, c21, c22, '-', c24, c25, c26, c27, c28, c29, c30, c31, c32, c33, c34, c35] =
        (match uuid.decodePairs [c0, c1, c2, c3, c4, c5, c6, c7, c9, c10, c11, c12, c14, c15, c16, c17, c19, c20, c21, c22, c24, c25, c26, c27, c28, c29, c30, c31, c32, c33, c34, c35] with
          | some bs => if h : bs.length = 16 then some ⟨bs, h⟩ else none
          | none => none) := rfl
    rw [hc, hdec]
    simp only [hblen, dite_true]
  · unfold uuid.UUID.String
    simp only [hexEncode_take, hexEncode_drop, henc]
    rfl

end UuidRoundTrip

/-! ## The create handler -/

section CreateHandler
open sql validator

theorem create_valid_of (req : json_models.CreateSubscription)
    (hname : req.ServiceName ≠ "") (hprice : 0 < req.Price)
    (huser : isUUID4 req.UserID = true) (hstart : spec.isMonthYear req.StartDate = true)
    (hend : ∀ text, req.EndDate = some text → spec.isMonthYear text = true) :
    StructCreateSubscription req = [] := by
  have hp0 : req.Price ≠ 0 := by omega
  have hu0 : req.UserID ≠ "" := by
    intro h
    rw [h] at huser
    revert huser
    decide
  have hs0 : req.StartDate ≠ "" := by
    intro h
    rw [h] at hstart
    revert hstart
    decide
  have hsd : isDatetime req.StartDate = true := by rw [isDatetime_eq_isMonthYear]; exact hstart
  unfold StructCreateSubscription requiredDatetime omitemptyDatetime
  cases hE : req.EndDate with
  | none => simp [hname, hp0, hprice, hu0, huser, hs0, hsd]
  | some text =>
    have hed : isDatetime text = true := by
      rw [isDatetime_eq_isMonthYear]; exact hend text hE
    simp [hname, hp0, hprice, hu0, huser, hs0, hsd, hed]

theorem service_create_valid (db : DB) (req : json_models.CreateSubscription)
    (newID : uuid.UUID) (now : time.Time) (hv : StructCreateSubscription req = []) :
    service.CreateSubscription db req newID now =
      repository.InsertSubscription db req.ServiceName req.Price req.UserID
        (spec.monthStart req.StartDate) (req.EndDate.map spec.monthStart) newID now := by
  obtain ⟨_, _, _, hstart, hend⟩ := create_valid_inv req hv
  unfold service.CreateSubscription
  rw [parse_monthStart _ hstart]
  cases hE : req.EndDate with
  | none => rfl
  | some text =>
    simp only [parse_monthStart _ (hend text hE)]
    rfl

theorem create_handler_of_valid (db : DB) (req : json_models.CreateSubscription)
    (newID : uuid.UUID) (now : time.Time) (hv : StructCreateSubscription req = [])
    (hf : db.fault = none) :
    handler.createSubscription db (some req) newID now =
      (⟨201, .created newID.String⟩,
        { db.sent repository.insertQuery
            [Value.text newID.String, Value.text req.ServiceName, Value.int req.Price,
              Value.text req.UserID, Value.time (spec.monthStart req.StartDate),
              Value.ofTime (req.EndDate.map spec.monthStart), Value.time now] with
          rows := db.rows ++ [⟨newID.String, req.ServiceName, req.Price, req.UserID,
            spec.monthStart req.StartDate, req.EndDate.map spec.monthStart, now⟩] }) := by
  have hsvc := service_create_valid db req newID now hv
  have hins : repository.InsertSubscription db req.ServiceName req.Price req.UserID
      (spec.monthStart req.StartDate) (req.EndDate.map spec.monthStart) newID now =
      ((newID.String, none),
        { db.sent repository.insertQuery
            [Value.text newID.String, Value.text req.ServiceName, Value.int req.Price,
              Value.text req.UserID, Value.time (spec.monthStart req.StartDate),
              Value.ofTime (req.EndDate.map spec.monthStart), Value.time now] with
          rows := db.rows ++ [⟨newID.String, req.ServiceName, req.Price, req.UserID,
            spec.monthStart req.StartDate, req.EndDate.map spec.monthStart, now⟩] }) := by
    unfold repository.InsertSubscription
    simp only [DB.failure, hf]
  unfold handler.createSubscription
  simp only [hv, ne_eq, not_true_eq_false, if_false, hsvc, hins,
    uuid_string_ne_empty newID]

/-- C11 (counterexample): a create request whose `user_id` is a UUID-formatted text of
version 1, or a version-4 one in upper case, with every other field valid and the store
answering, is answered 422 on the `uuid4` tag and nothing is inserted. -/
theorem uuid_formatted_user_can_be_refused :
    spec.isUUIDText sample.versionOneUser = true ∧
    spec.isUUIDText sample.upperCaseUser = true ∧
    sample.spotifyRequest.ServiceName ≠ "" ∧ 0 < sample.spotifyRequest.Price ∧
    spec.isMonthYear sample.spotifyRequest.StartDate = true ∧
    sample.spotifyRequest.EndDate = none ∧ sample.emptyStore.fault = none ∧
    handler.createSubscription sample.emptyStore
        (some { sample.spotifyRequest with UserID := sample.versionOneUser })
        sample.idOne sample.noon =
      (⟨422, .text (errorText [⟨"CreateSubscription", "UserID", "uuid4"⟩])⟩,
        sample.emptyStore) ∧
    handler.createSubscription sample.emptyStore
        (some { sample.spotifyRequest with UserID := sample.upperCaseUser })
        sample.idOne sample.noon =
      (⟨422, .text (errorText [⟨"CreateSubscription", "UserID", "uuid4"⟩])⟩,
        sample.emptyStore) := by
  decide

/-- C11 (amended): the create handler answers 422 with the validation text, without
reaching the store, when `service_name` is empty, or `price` is not greater than 0, or
`user_id` is not a lower-case version-4 UUID text (which every text that is not
UUID-formatted fails to be), or `start_date` is not `MM-YYYY`, or `end_date` is present
and not `MM-YYYY`; when none of these holds and the store answers, it answers 201 with
the new id and the status `created`. -/
theorem create_handler_validates_then_creates (db : DB) (req : json_models.CreateSubscription)
    (newID : uuid.UUID) (now : time.Time) :
    ((req.ServiceName = "" ∨ req.Price ≤ 0 ∨ isUUID4 req.UserID = false ∨
        spec.isMonthYear req.StartDate = false ∨
        (∃ text, req.EndDate = some text ∧ spec.isMonthYear text = false)) →
      handler.createSubscription db (some req) newID now =
        (⟨422, .text (errorText (StructCreateSubscription req))⟩, db)) ∧
    (spec.isUUIDText req.UserID = false → isUUID4 req.UserID = false) ∧
    (req.ServiceName ≠ "" → 0 < req.Price → isUUID4 req.UserID = true →
      spec.isMonthYear req.StartDate = true →
      (∀ text, req.EndDate = some text → spec.isMonthYear text = true) →
      db.fault = none →
      (handler.createSubscription db (some req) newID now).1 =
        ⟨201, .created newID.String⟩) := by
  refine ⟨?_, ?_, ?_⟩
  · intro hbad
    have hne : StructCreateSubscription req ≠ [] := by
      intro hv
      obtain ⟨h1, h2, h3, h4, h5⟩ := create_valid_inv req hv
      rw [isDatetime_eq_isMonthYear] at h4
      rcases hbad with h | h | h | h | ⟨text, ht, h⟩
      · exact h1 h
      · omega
      · rw [h3] at h; cases h
      · rw [h4] at h; cases h
      · have := h5 text ht
        rw [isDatetime_eq_isMonthYear, h] at this
        cases this
    simp [handler.createSubscription, hne]
  · intro h
    cases hu : isUUID4 req.UserID with
    | false => rfl
    | true => rw [isUUIDText_of_isUUID4 _ hu] at h; cases h
  · intro hname hprice huser hstart hend hf
    rw [create_handler_of_valid db req newID now
      (create_valid_of req hname hprice huser hstart hend) hf]

theorem create_handler_validates_then_creates_witness :
    sample.createRequest.ServiceName ≠ "" ∧ 0 < sample.createRequest.Price ∧
      isUUID4 sample.createRequest.UserID = true ∧
      spec.isMonthYear sample.createRequest.StartDate = true ∧
      sample.store.fault = none ∧
      (handler.createSubscription sample.store (some sample.createRequest) sample.idTwo
        sample.noon).1 = ⟨201, .created "7c9e6679-7425-40de-944b-e07fc1f90ae7"⟩ ∧
      handler.createSubscription sample.store
        (some { sample.createRequest with Price := 0 }) sample.idTwo sample.noon =
        (⟨422, .text (errorText [⟨"CreateSubscription", "Price", "required"⟩])⟩,
          sample.store) :=
  ⟨by decide, by decide, by decide, by decide, rfl,
    ((create_handler_validates_then_creates sample.store sample.createRequest sample.idTwo
      sample.noon).2.2 (by decide) (by decide) (by decide) (by decide) (by decide) rfl).trans
      (by decide),
    ((create_handler_validates_then_creates sample.store
      { sample.createRequest with Price := 0 } sample.idTwo sample.noon).1
      (Or.inr (Or.inl (by decide)))).trans (by decide)⟩

end CreateHandler

/-! ## The example of the specification -/

section Example
open sql validator

theorem cost_valid_inv (req : json_models.CostRequest) (h : StructCostRequest req = []) :
    isDatetime req.StartDate = true ∧
      ∀ text, req.EndDate = some text → isDatetime text = true := by
  unfold StructCostRequest at h
  simp only [List.append_eq_nil] at h
  refine ⟨requiredDatetime_nil _ _ _ h.1, ?_⟩
  intro text ht
  have h2 := h.2
  rw [ht] at h2
  exact omitemptyDatetime_nil _ _ _ h2

theorem cost_handler_without_user (L : CaseFolding) (db : DB) (req : json_models.CostRequest) (now : time.Time)
    (hv : StructCostRequest req = []) (hu : req.UserID = none) (hf : db.fault = none) :
    (handler.calculateSubscriptionsCost L db (some req) now).1 =
      ⟨200, .cost
        (((db.rows.filter (spec.qualifies L none req.ServiceName (spec.monthStart req.StartDate)
          ((req.EndDate.map spec.monthStart).getD now))).map (fun r => r.Price)).sum)
        req.StartDate req.EndDate⟩ := by
  obtain ⟨hstart, hend⟩ := cost_valid_inv req hv
  have hps := parse_monthStart _ hstart
  have hsvc : service.CalculateSubscriptionsCost L db none req.ServiceName req.StartDate
      req.EndDate now =
      repository.GetSubscriptionsCost L db none req.ServiceName (spec.monthStart req.StartDate)
        (req.EndDate.map spec.monthStart) now := by
    unfold service.CalculateSubscriptionsCost
    rw [hps]
    cases hE : req.EndDate with
    | none => rfl
    | some text =>
      simp only [parse_monthStart _ (hend text hE)]
      rfl
  have hrepo : (repository.GetSubscriptionsCost L db none req.ServiceName
      (spec.monthStart req.StartDate) (req.EndDate.map spec.monthStart) now).1 =
      (((db.rows.filter (spec.qualifies L none req.ServiceName (spec.monthStart req.StartDate)
          ((req.EndDate.map spec.monthStart).getD now))).map (fun r => r.Price)).sum,
        none) := by
    simp only [repository.GetSubscriptionsCost, failure_of_no_fault db _ hf, Option.orElse_none,
      selectCost, sumPrice_getD]
    have : (fun r => (repository.costStatement none req.ServiceName
        (spec.monthStart req.StartDate) (req.EndDate.map spec.monthStart) now).conds.all
        (fun c => c.holds L (repository.costStatement none req.ServiceName
          (spec.monthStart req.StartDate) (req.EndDate.map spec.monthStart) now).args r)) =
        spec.qualifies L none req.ServiceName (spec.monthStart req.StartDate)
          ((req.EndDate.map spec.monthStart).getD now) := by
      funext r
      exact costStatement_holds L _ _ _ _ _ r
    rw [this]
  unfold handler.calculateSubscriptionsCost
  simp only [hv, ne_eq, not_true_eq_false, if_false, hu, hsvc, hrepo]

/-- C14 (counterexample): the example with a UUID text of version 1 as `u`. The text
has the form of a UUID and `uuid.Parse` accepts it, yet the create request is answered
422 on the tag `uuid4` and nothing is inserted; getting the subscriptions of `u` is then
answered with the empty sequence, and the cost calculation with 0. -/
theorem spotify_example_fails_for_version_one_user :
    spec.isUUIDText sample.versionOneUser = true ∧
    (uuid.Parse sample.versionOneUser).isSome = true ∧
    sample.emptyStore.rows = [] ∧ sample.emptyStore.fault = none ∧
    handler.createSubscription sample.emptyStore
        (some ⟨"Spotify", 500, sample.versionOneUser, "01-2024", none⟩)
        sample.idOne sample.noon =
      (⟨422, .text (errorText [⟨"CreateSubscription", "UserID", "uuid4"⟩])⟩,
        sample.emptyStore) ∧
    (handler.getSubscription sample.emptyStore sample.versionOneUser).1 =
      ⟨200, .subscriptions []⟩ ∧
    (handler.calculateSubscriptionsCost CaseFolding.ascii sample.emptyStore
        (some ⟨none, none, "01-2024", none⟩) sample.noon).1 =
      ⟨200, .cost 0 "01-2024" none⟩ := by
  decide

/-- C14 (amended): from a store that answers and holds no row, creating
`{service_name: "Spotify", price: 500, user_id: u, start_date: "01-2024"}` with a
lower-case version-4 UUID text `u` is answered 201 with the new id; getting the
subscriptions of `u` is then answered 200 with the single record of price 500; and the
cost calculation with `start-date=01-2024` and no other parameter is then answered 200
with `total_cost` 500, at whatever time it runs. -/
theorem spotify_example_end_to_end (L : CaseFolding) (u : String)
    (hu : isUUID4 u = true) (log : List (String × List Value)) (newID : uuid.UUID) (now later : time.Time) :
    ∃ db1 db2 : DB,
      handler.createSubscription ⟨[], none, log⟩ (some ⟨"Spotify", 500, u, "01-2024", none⟩)
        newID now = (⟨201, .created newID.String⟩, db1) ∧
      handler.getSubscription db1 u =
        (⟨200, .subscriptions
          [⟨newID.String, "Spotify", 500, u, time.Date 2024 1 1 0 0 0 0 time.UTC, none,
            now⟩]⟩, db2) ∧
      (handler.calculateSubscriptionsCost L db2 (some ⟨none, none, "01-2024", none⟩) later).1 =
        ⟨200, .cost 500 "01-2024" none⟩ := by
  have hv : StructCreateSubscription ⟨"Spotify", 500, u, "01-2024", none⟩ = [] :=
    create_valid_of _ (by simp) (by simp) hu (by simp; decide) (by intro text h; cases h)
  have hcreate := create_handler_of_valid ⟨[], none, log⟩
    ⟨"Spotify", 500, u, "01-2024", none⟩ newID now hv rfl
  obtain ⟨v, hparse, hstr⟩ := uuid4_parse_string u hu
  have hne : u ≠ "" := by
    intro h
    rw [h] at hu
    revert hu
    decide
  have hstart : spec.monthStart "01-2024" = time.Date 2024 1 1 0 0 0 0 time.UTC := by decide
  refine ⟨⟨[⟨newID.String, "Spotify", 500, u, time.Date 2024 1 1 0 0 0 0 time.UTC, none, now⟩],
      none,
      log ++ [(repository.insertQuery,
        [Value.text newID.String, Value.text "Spotify", Value.int 500, Value.text u,
          Value.time (time.Date 2024 1 1 0 0 0 0 time.UTC), Value.null, Value.time now])]⟩,
    ⟨[⟨newID.String, "Spotify", 500, u, time.Date 2024 1 1 0 0 0 0 time.UTC, none, now⟩],
      none,
      log ++ [(repository.insertQuery,
        [Value.text newID.String, Value.text "Spotify", Value.int 500, Value.text u,
          Value.time (time.Date 2024 1 1 0 0 0 0 time.UTC), Value.null, Value.time now])] ++
        [(repository.selectQuery, [Value.text u])]⟩, ?_, ?_, ?_⟩
  · rw [hcreate]
    simp only [DB.sent, hstart, Option.map, Value.ofTime, List.nil_append]
  · unfold handler.getSubscription
    rw [if_neg hne, hparse]
    simp only [service.GetUserSubscriptions, repository.GetSubscriptions, DB.failure, DB.sent,
      hstr]
    simp
  · rw [cost_handler_without_user L _ ⟨none, none, "01-2024", none⟩ later (by decide) rfl rfl]
    have hle : (time.Date 2024 1 1 0 0 0 0 time.UTC).le (time.Date 2024 1 1 0 0 0 0 time.UTC) =
        true := by decide
    simp [spec.qualifies, hstart, hle]

theorem spotify_example_end_to_end_witness :
    isUUID4 sample.userA.String = true ∧
      ∃ db1 db2 : DB,
        handler.createSubscription ⟨[], none, []⟩
          (some ⟨"Spotify", 500, sample.userA.String, "01-2024", none⟩)
          sample.idOne sample.noon = (⟨201, .created sample.idOne.String⟩, db1) ∧
        handler.getSubscription db1 sample.userA.String =
          (⟨200, .subscriptions
            [⟨sample.idOne.String, "Spotify", 500, sample.userA.String,
              time.Date 2024 1 1 0 0 0 0 time.UTC, none, sample.noon⟩]⟩, db2) ∧
        (handler.calculateSubscriptionsCost CaseFolding.ascii db2
          (some ⟨none, none, "01-2024", none⟩) sample.jan2024).1 = ⟨200, .cost 500 "01-2024" none⟩ :=
  ⟨by decide, spotify_example_end_to_end CaseFolding.ascii sample.userA.String (by decide) []
    sample.idOne
    sample.noon sample.jan2024⟩

end Example

end SubscriptionAPI
